import Mathlib

/-!
Verification development for the `ModularIntradayStrategy` intraday trading
engine (`smartapi/strategy.py`, with the RSI variant of
`smartapi/indicators.py`).  The engine is shallowly embedded over exact
rationals: ticks, one-minute bar aggregation, the incremental indicator
computations (ATR, Supertrend, EMA, RSI, VWAP), the position/risk state
machine (entries, dual stop loss, tiered take profit, session-end exit,
re-entry gating) and the trade/equity ledger.  Python floats are modelled
by `ℚ`, pandas NaN by `Option`, and timestamps by a calendar day plus
minutes since midnight.
-/

namespace AngelAlgo

/-- A possibly-NaN numeric value (`none` models `np.nan`). -/
abbrev PF := Option ℚ

/-- A timezone-aware instant: calendar `day` ordinal (IST) and `mins`,
minutes elapsed since local midnight (fractional part carries the seconds).
Well-formed stamps have `0 ≤ mins < 1440`. -/
structure TS where
  day : ℤ
  mins : ℚ
deriving DecidableEq

/-- `timestamp.replace(second=0, microsecond=0)` as a totally ordered key:
day ordinal times 1440 plus the whole minute of day. -/
def minuteKey (ts : TS) : ℤ := ts.day * 1440 + Int.floor ts.mins

/-- Exit-reason and log strings used by the engine. -/
def rTime : String := "time"

def rProfit : String := "profit"

def rTP1 : String := "TP1-Quick"

def rTP2 : String := "TP2-Medium"

def rTP3 : String := "TP3-Runner"

def rSessionEnd : String := "MANDATORY: Session End"

def rMandatory : String := "MANDATORY: "

def rTrailSL : String := "Trail Stop Loss"

def rBaseSL : String := "Base Stop Loss"

def rNone : String := ""

/-- A closed one-minute bar, with the indicator fields that
`_update_indicators_on_history` may write onto it (`none` = key absent in
the Python dict; for numeric indicator values `some none` = key present
holding NaN). -/
structure Bar where
  opn : ℚ
  high : ℚ
  low : ℚ
  close : ℚ
  volume : ℚ
  timestamp : ℤ
  supertrend : Option ℤ
  rsi : Option PF
  ema_fast : Option PF
  ema_slow : Option PF
  ema_bull : Option Bool
  htf_trend : Option PF
  htf_bullish : Option Bool
deriving DecidableEq

/-- The forming (in-progress) bar: `self.current_bar_data`. -/
structure FormingBar where
  opn : Option ℚ
  high : Option ℚ
  low : Option ℚ
  close : Option ℚ
  volume : ℚ
  timestamp : Option ℤ
deriving DecidableEq

/-- `current_bar_data` right after construction or reset. -/
def emptyForming : FormingBar :=
  { opn := none, high := none, low := none, close := none, volume := 0, timestamp := none }

/-- A ledger trade record (immutable once appended). -/
structure Trade where
  entry_time : Option TS
  exit_time : TS
  entry_price : ℚ
  exit_price : ℚ
  quantity : ℚ
  pnl : ℚ
  reason : String
deriving DecidableEq

/-- An equity-curve point. -/
structure EquityPoint where
  timestamp : Option TS
  equity : ℚ
deriving DecidableEq

/-- The configuration fields of `ModularIntradayStrategy.__init__` that the
tick path reads (set once, before any tick). -/
structure Params where
  initial_capital : ℚ
  use_supertrend : Bool
  use_vwap : Bool
  use_ema_crossover : Bool
  use_rsi_filter : Bool
  is_intraday : Bool
  intraday_start_hour : ℕ
  intraday_start_min : ℕ
  intraday_end_hour : ℕ
  intraday_end_min : ℕ
  rsi_length : ℕ
  rsi_overbought : ℚ
  rsi_oversold : ℚ
  atr_len : ℕ
  atr_mult : ℚ
  fast_ema : ℕ
  slow_ema : ℕ
  base_sl_points : ℚ
  use_trail_stop : Bool
  trail_activation_points : ℚ
  trail_distance_points : ℚ
  use_tiered_tp : Bool
  tp1_points : ℚ
  tp2_points : ℚ
  tp3_points : ℚ
  exit_before_close : ℚ
  risk_per_trade_percent : ℚ
  reentry_price_buffer : ℚ
  reentry_momentum_lookback : ℕ
  reentry_min_green_candles : ℕ
deriving DecidableEq

/-- The default parameter values from `__init__`. -/
def defaultParams : Params where
  initial_capital := 100000
  use_supertrend := true
  use_vwap := true
  use_ema_crossover := true
  use_rsi_filter := true
  is_intraday := true
  intraday_start_hour := 9
  intraday_start_min := 15
  intraday_end_hour := 15
  intraday_end_min := 15
  rsi_length := 14
  rsi_overbought := 70
  rsi_oversold := 30
  atr_len := 10
  atr_mult := 3
  fast_ema := 9
  slow_ema := 21
  base_sl_points := 15
  use_trail_stop := true
  trail_activation_points := 25
  trail_distance_points := 10
  use_tiered_tp := true
  tp1_points := 25
  tp2_points := 45
  tp3_points := 100
  exit_before_close := 20
  risk_per_trade_percent := 1
  reentry_price_buffer := 5
  reentry_momentum_lookback := 3
  reentry_min_green_candles := 1

/-- The full mutable state of one `ModularIntradayStrategy` instance. -/
structure State where
  params : Params
  position_size : ℚ
  position_entry_price : ℚ
  position_entry_time : Option TS
  position_high_price : ℚ
  tp1_filled : ℚ
  tp2_filled : ℚ
  trailing_active : Bool
  base_stop_price : ℚ
  trail_stop_price : ℚ
  last_exit_price : Option ℚ
  last_entry_price : Option ℚ
  last_exit_reason : String
  last_time_exit_date : Option ℤ
  trades : List Trade
  equity_curve : List EquityPoint
  current_equity : ℚ
  max_bar_history_length : ℕ
  min_bars_for_signals : ℕ
  bar_history : List Bar
  current_bar_data : FormingBar
  last_processed_minute : Option ℤ
  daily_vwap_sum_tpv : ℚ
  daily_vwap_sum_volume : ℚ
  last_vwap_day : Option ℤ
  current_vwap : PF
  current_vwap_bull : Bool
  supertrend_trend : ℤ
  supertrend_final_upperband : Option ℚ
  supertrend_final_lowerband : Option ℚ
deriving DecidableEq

/-- `max(self.atr_len, self.rsi_length, self.slow_ema, 20, self.reentry_momentum_lookback)`. -/
def minBars (p : Params) : ℕ :=
  Nat.max (Nat.max (Nat.max (Nat.max p.atr_len p.rsi_length) p.slow_ema) 20)
    p.reentry_momentum_lookback

/-- A fresh engine instance (`__init__` after the params override). -/
def initState (p : Params) : State where
  params := p
  position_size := 0
  position_entry_price := 0
  position_entry_time := none
  position_high_price := 0
  tp1_filled := 0
  tp2_filled := 0
  trailing_active := false
  base_stop_price := 0
  trail_stop_price := 0
  last_exit_price := none
  last_entry_price := none
  last_exit_reason := rNone
  last_time_exit_date := none
  trades := []
  equity_curve := [{ timestamp := none, equity := p.initial_capital }]
  current_equity := p.initial_capital
  max_bar_history_length := minBars p * 2
  min_bars_for_signals := minBars p
  bar_history := []
  current_bar_data := emptyForming
  last_processed_minute := none
  daily_vwap_sum_tpv := 0
  daily_vwap_sum_volume := 0
  last_vwap_day := none
  current_vwap := none
  current_vwap_bull := false
  supertrend_trend := 1
  supertrend_final_upperband := none
  supertrend_final_lowerband := none

/-- A trade tick. -/
structure Tick where
  ts : TS
  price : ℚ
  volume : ℚ
deriving DecidableEq

/-! ### List helpers mirroring the pandas operations -/

/-- `series.tail(n)`: the last `n` elements. -/
def takeLast (n : ℕ) (xs : List α) : List α := xs.drop (xs.length - n)

/-- `series.diff()` without its leading NaN: consecutive differences. -/
def diffs (xs : List ℚ) : List ℚ := (xs.zip xs.tail).map fun p => p.2 - p.1

/-- The defined (non-NaN) values of `series.rolling(window=n).mean()`:
the mean of each length-`n` window of `xs`. -/
def slidingMeans (n : ℕ) (xs : List ℚ) : List ℚ :=
  (List.range (xs.length + 1 - n)).map fun i => ((xs.drop i).take n).sum / n

/-- `delta.where(delta > 0, 0)`: clip each difference to its gain part. -/
def gainParts (ds : List ℚ) : List ℚ := ds.map fun d => max d 0

/-- `-delta.where(delta < 0, 0)`: clip each difference to its loss part. -/
def lossParts (ds : List ℚ) : List ℚ := ds.map fun d => max (-d) 0

/-! ### Indicator computations -/

/-- The `close` column of the bar history. -/
def closesOf (hist : List Bar) : List ℚ := hist.map Bar.close

/-- The defined true-range values: for each bar after the first,
`max(high − low, |high − prevClose|, |low − prevClose|)`. -/
def trueRanges (hist : List Bar) : List ℚ :=
  (hist.zip hist.tail).map fun pc =>
    max (pc.2.high - pc.2.low) (max |pc.2.high - pc.1.close| |pc.2.low - pc.1.close|)

/-- `_calculate_atr_latest`: NaN until `atr_len + 1` bars, then the simple
rolling mean of true range over the last `atr_len` bars. -/
def calcATR (n : ℕ) (hist : List Bar) : PF :=
  if hist.length < n + 1 then none
  else some ((takeLast n (trueRanges hist)).sum / n)

/-- The `ewm(span=p, adjust=False).mean()` recursion, returning the last value:
seeded by the first element, then `e := (1 − α)·e + α·x` with `α = 2/(p+1)`. -/
def ewmLast (a : ℚ) : ℚ → List ℚ → ℚ
  | acc, [] => acc
  | acc, x :: xs => ewmLast a ((1 - a) * acc + a * x) xs

/-- `_calculate_ema_latest` / `EMAIndicator._calculate_impl` with its caller
length guard: NaN until `p` bars, else the EMA over the last `2p` closes. -/
def calcEMA (p : ℕ) (cs : List ℚ) : PF :=
  if cs.length < p then none
  else
    match takeLast (2 * p) cs with
    | [] => none
    | x :: xs => some (ewmLast (2 / ((p : ℚ) + 1)) x xs)

/-- `_calculate_rsi_latest` (smartapi/strategy.py): over the last `2n` closes,
`series.diff()` carries a leading NaN which `delta.where(delta > 0, 0)` and
`-delta.where(delta < 0, 0)` replace by `0` (a NaN comparison is False), so the
gain and loss series start with an artificial `0` before the real clipped
differences, and the defined rolling means of window `n` include a first window
containing that `0`. `(loss != 0).all()` checks every one of those defined
rolling loss means; if all are nonzero, `RSI = 100 − 100/(1 + gain/loss)` at
the last bar, otherwise `rs` is set to `+∞` for the whole series and the last
RSI evaluates to `100`. -/
def rsiStrategyLatest (n : ℕ) (cs : List ℚ) : PF :=
  if cs.length < n + 1 then none
  else
    let ds := diffs (takeLast (2 * n) cs)
    let gains := 0 :: gainParts ds
    let losses := 0 :: lossParts ds
    let lossMeans := slidingMeans n losses
    let g := (takeLast n gains).sum / n
    let l := (takeLast n losses).sum / n
    if lossMeans.all fun x => decide (x ≠ 0) then some (100 - 100 / (1 + g / l))
    else some 100

/-- `RSIIndicator._calculate_impl` (smartapi/indicators.py) together with its
`calculate` guard (`min_bars_required = length + 1`): the same `where()`-padded
gain and loss series as above, but only their last rolling means are read;
`rs = gain/loss` with `±∞` replaced by `0`; a `0/0` ratio stays NaN. -/
def rsiIndicatorCalc (n : ℕ) (cs : List ℚ) : PF :=
  if cs.length < n + 1 then none
  else
    let ds := diffs (takeLast (2 * n) cs)
    let g := (takeLast n (0 :: gainParts ds)).sum / n
    let l := (takeLast n (0 :: lossParts ds)).sum / n
    if l ≠ 0 then some (100 - 100 / (1 + g / l))
    else if g ≠ 0 then some (100 - 100 / (1 + 0))
    else none

/-- Result of one `_calculate_supertrend_latest` call: the returned trend and
the mutated final bands. -/
structure StResult where
  trend : ℤ
  ub : Option ℚ
  lb : Option ℚ
deriving DecidableEq

/-- `_calculate_supertrend_latest`: band ratcheting plus sticky trend flips,
threaded through the engine field `supertrend_trend` / final-band state. -/
def supertrendLatest (atrLen : ℕ) (atrMult : ℚ) (trend0 : ℤ) (ub0 lb0 : Option ℚ)
    (hist : List Bar) : StResult :=
  if hist.length < atrLen + 1 then { trend := trend0, ub := ub0, lb := lb0 }
  else
    match calcATR atrLen hist, hist.getLast? with
    | some atr, some cur =>
      let hlc3 := (cur.high + cur.low + cur.close) / 3
      let upperband := hlc3 + atrMult * atr
      let lowerband := hlc3 - atrMult * atr
      let fub := match ub0, lb0 with
        | some u, some _ => u
        | _, _ => upperband
      let flb := match ub0, lb0 with
        | some _, some l => l
        | _, _ => lowerband
      let fub2 := if cur.close > fub then lowerband else min upperband fub
      let flb2 := if cur.close < flb then upperband else max lowerband flb
      let trend2 :=
        if trend0 = 1 ∧ cur.close < flb2 then -1
        else if trend0 = -1 ∧ cur.close > fub2 then 1
        else trend0
      { trend := trend2, ub := some fub2, lb := some flb2 }
    | _, _ => { trend := trend0, ub := ub0, lb := lb0 }

/-! ### Comparisons with pandas NaN semantics (any comparison with NaN is false) -/

/-- `a > b` on possibly-NaN values. -/
def pfGt (a b : PF) : Bool :=
  match a, b with
  | some x, some y => decide (y < x)
  | _, _ => false

/-- `x > b` for a plain float against a possibly-NaN value. -/
def qGtPF (x : ℚ) (b : PF) : Bool :=
  match b with
  | some y => decide (y < x)
  | none => false

/-! ### Session timing -/

/-- `(end_time − t).total_seconds() / 60` where `end_time` is the same day at
the configured session-end hour and minute with seconds zeroed. -/
def minutesToEnd (p : Params) (ts : TS) : ℚ :=
  ((p.intraday_end_hour : ℚ) * 60 + (p.intraday_end_min : ℚ)) - ts.mins

/-- `is_near_session_end`: true exactly when `0 < time_to_end ≤ exit_before_close`. -/
def isNearSessionEnd (p : Params) (ts : TS) : Bool :=
  if p.is_intraday then
    decide (0 < minutesToEnd p ts ∧ minutesToEnd p ts ≤ p.exit_before_close)
  else false

/-- `should_allow_new_entries`: true when `time_to_end > exit_before_close + 30`. -/
def shouldAllowNewEntries (p : Params) (ts : TS) : Bool :=
  if p.is_intraday then decide (p.exit_before_close + 30 < minutesToEnd p ts)
  else true

/-! ### Bar aggregation -/

/-- `_update_current_bar_data`: absorb one tick into the forming bar. -/
def updateCurrentBar (cb : FormingBar) (ts : TS) (price volume : ℚ) : FormingBar :=
  match cb.opn with
  | none =>
    { opn := some price, high := some price, low := some price, close := some price,
      volume := cb.volume + volume, timestamp := some (minuteKey ts) }
  | some o =>
    { opn := some o, high := some (max (cb.high.getD o) price),
      low := some (min (cb.low.getD o) price), close := some price,
      volume := cb.volume + volume, timestamp := cb.timestamp }

/-- `if len > max: pop(0)` after an append. -/
def boundHistory (maxLen : ℕ) (h : List α) : List α :=
  if maxLen < h.length then h.tail else h

/-- `_close_and_add_bar_to_history`: finalize the forming bar (if it absorbed
at least one tick, i.e. its open is set), stamp it with the completed minute,
append it to the bounded history and reset the forming state. -/
def closeAndAddBar (s : State) (barTs : ℤ) : State :=
  match s.current_bar_data.opn with
  | none => s
  | some o =>
    let cb := s.current_bar_data
    let bar : Bar :=
      { opn := o, high := cb.high.getD o, low := cb.low.getD o, close := cb.close.getD o,
        volume := cb.volume, timestamp := barTs, supertrend := none, rsi := none,
        ema_fast := none, ema_slow := none, ema_bull := none, htf_trend := none,
        htf_bullish := none }
    { s with bar_history := boundHistory s.max_bar_history_length (s.bar_history ++ [bar]),
             current_bar_data := emptyForming }

/-- `_update_indicators_on_history`: once warm-up is met, write the indicator
values of the just-closed bar onto it (and thread the Supertrend state). -/
def updateIndicators (s : State) : State :=
  if s.bar_history.length < s.min_bars_for_signals then s
  else
    match s.bar_history.getLast? with
    | none => s
    | some lastBar =>
      let hist := s.bar_history
      let cs := closesOf hist
      let st := supertrendLatest s.params.atr_len s.params.atr_mult s.supertrend_trend
        s.supertrend_final_upperband s.supertrend_final_lowerband hist
      let emaF := calcEMA s.params.fast_ema cs
      let emaS := calcEMA s.params.slow_ema cs
      let htf := calcEMA 20 cs
      let b1 := if s.params.use_supertrend then
          { lastBar with supertrend := some st.trend } else lastBar
      let b2 := if s.params.use_rsi_filter then
          { b1 with rsi := some (rsiStrategyLatest s.params.rsi_length cs) } else b1
      let b3 := if s.params.use_ema_crossover then
          { b2 with ema_fast := some emaF, ema_slow := some emaS,
                    ema_bull := some (pfGt emaF emaS) } else b2
      let b4 := { b3 with htf_trend := some htf,
                          htf_bullish := some (qGtPF lastBar.close htf) }
      { s with bar_history := hist.dropLast ++ [b4],
               supertrend_trend := if s.params.use_supertrend then st.trend
                 else s.supertrend_trend,
               supertrend_final_upperband := if s.params.use_supertrend then st.ub
                 else s.supertrend_final_upperband,
               supertrend_final_lowerband := if s.params.use_supertrend then st.lb
                 else s.supertrend_final_lowerband }

/-! ### VWAP -/

/-- `_calculate_vwap_latest`: reset the day sums (and the Supertrend final
bands) on a new calendar day, accumulate price·volume and volume, and report
the ratio (NaN while the day volume is not positive). -/
def vwapStep (s : State) (price volume : ℚ) (ts : TS) : State :=
  let s1 :=
    if s.last_vwap_day ≠ some ts.day then
      { s with daily_vwap_sum_tpv := 0, daily_vwap_sum_volume := 0,
               last_vwap_day := some ts.day,
               supertrend_final_upperband := none, supertrend_final_lowerband := none }
    else s
  let tpv := s1.daily_vwap_sum_tpv + price * volume
  let vol := s1.daily_vwap_sum_volume + volume
  { s1 with daily_vwap_sum_tpv := tpv, daily_vwap_sum_volume := vol,
            current_vwap := if 0 < vol then some (tpv / vol) else none }

/-! ### Position and risk state machine -/

/-- `current_bar_row.get(ema_bull)` coerced to a truth value. -/
def rowEmaBull (row : Option Bar) : Bool := (row.bind Bar.ema_bull).getD false

/-- `current_bar_row.get(supertrend)`. -/
def rowSupertrend (row : Option Bar) : Option ℤ := row.bind Bar.supertrend

/-- `current_bar_row.get(htf_bullish)` coerced to a truth value. -/
def rowHtfBullish (row : Option Bar) : Bool := (row.bind Bar.htf_bullish).getD false

/-- `rsi_oversold < current_bar_row.get(rsi, 50) < rsi_overbought`: a missing
key defaults to 50; a NaN value fails both comparisons. -/
def rsiFilterPass (p : Params) (row : Option Bar) : Bool :=
  match row.bind Bar.rsi with
  | none => decide (p.rsi_oversold < 50 ∧ (50 : ℚ) < p.rsi_overbought)
  | some none => false
  | some (some x) => decide (p.rsi_oversold < x ∧ x < p.rsi_overbought)

/-- `_check_reentry_momentum` (for a positive configured lookback): net price
rise over the lookback window and enough green candles within it. -/
def checkReentryMomentum (p : Params) (hist : List Bar) : Bool :=
  if hist.length < p.reentry_momentum_lookback + 1 then false
  else
    let lb := takeLast p.reentry_momentum_lookback hist
    match lb.head?, lb.getLast? with
    | some firstB, some lastB =>
      decide (firstB.close < lastB.close) &&
        decide (p.reentry_min_green_candles ≤
          (lb.filter fun b => decide (b.opn < b.close)).length)
    | _, _ => false

/-- `can_reenter`. -/
def canReenter (s : State) (price : ℚ) (ts : TS) (row : Option Bar) : Bool :=
  match s.last_exit_price with
  | none => true
  | some _ =>
    if s.last_exit_reason = rTime ∧ s.last_time_exit_date = some ts.day then false
    else
      match s.last_entry_price with
      | some lep =>
        if ¬ (lep + s.params.reentry_price_buffer < price) then false
        else if s.params.use_ema_crossover ∧ ¬ rowEmaBull row then false
        else if ¬ ((s.params.use_vwap ∧ s.current_vwap_bull) ∨
                   (s.params.use_supertrend ∧ rowSupertrend row = some 1)) then false
        else if ¬ checkReentryMomentum s.params s.bar_history then false
        else true
      | none => false

/-- The enabled-filter conjunction of the entry logic in `on_tick`. -/
def buySignal (s : State) (row : Option Bar) : Bool :=
  (!(s.params.use_supertrend && !(decide (rowSupertrend row = some 1)))) &&
  (!(s.params.use_vwap && !s.current_vwap_bull)) &&
  (!(s.params.use_ema_crossover && !(rowEmaBull row))) &&
  (!(s.params.use_rsi_filter && !(rsiFilterPass s.params row))) &&
  rowHtfBullish row

/-- Python `int()` on a float: truncation toward zero. -/
def pyInt (q : ℚ) : ℤ := if q < 0 then -Int.floor (-q) else Int.floor q

/-- `enter_position`: risk-based sizing with a minimum size of 1, fixed base
stop at `price − base_sl_points`, trailing stop inactive. -/
def enterPosition (s : State) (price : ℚ) (ts : TS) : State :=
  if s.position_size = 0 then
    let capital_to_risk := s.current_equity * (s.params.risk_per_trade_percent / 100)
    let sz0 : ℤ := pyInt (capital_to_risk / s.params.base_sl_points)
    let sz : ℤ := if sz0 = 0 then 1 else sz0
    { s with position_size := (sz : ℚ), position_entry_price := price,
             position_entry_time := some ts, position_high_price := price,
             base_stop_price := price - s.params.base_sl_points,
             trail_stop_price := 0, trailing_active := false,
             tp1_filled := 0, tp2_filled := 0 }
  else s

/-- `if current_price > self.position_high_price: self.position_high_price = current_price`. -/
def updHigh (s : State) (price : ℚ) : State :=
  if s.position_high_price < price then { s with position_high_price := price } else s

/-- `update_trailing_stop`: track the high, activate the trail once profit
reaches the activation threshold, then only ever raise it. -/
def updateTrailingStop (s : State) (price : ℚ) : State :=
  if ¬ s.params.use_trail_stop ∨ s.position_size ≤ 0 then s
  else
    let s1 := updHigh s price
    if ¬ s1.trailing_active ∧
        s1.params.trail_activation_points ≤ price - s1.position_entry_price then
      { s1 with trailing_active := true,
                trail_stop_price := s1.position_high_price - s1.params.trail_distance_points }
    else if s1.trailing_active then
      (if s1.trail_stop_price < s1.position_high_price - s1.params.trail_distance_points then
        { s1 with
          trail_stop_price := s1.position_high_price - s1.params.trail_distance_points }
      else s1)
    else s1

/-- `get_effective_stop_price`: the base stop while the trail is inactive or
not positive, else the higher of base and trail. -/
def getEffectiveStopPrice (s : State) : ℚ :=
  if ¬ s.trailing_active ∨ s.trail_stop_price ≤ 0 then s.base_stop_price
  else max s.base_stop_price s.trail_stop_price

/-- `check_stop_loss_hit`. -/
def checkStopLossHit (s : State) (price : ℚ) : Bool × String :=
  if price ≤ getEffectiveStopPrice s then
    (true, if s.trailing_active ∧ s.base_stop_price < s.trail_stop_price
           then rTrailSL else rBaseSL)
  else (false, rNone)

/-- `_reset_position_state`. -/
def resetPositionState (s : State) : State :=
  { s with position_size := 0, position_entry_time := none, position_high_price := 0,
           base_stop_price := 0, trail_stop_price := 0, trailing_active := false,
           tp1_filled := 0, tp2_filled := 0 }

/-- The `1e-9` effectively-zero tolerance of `exit_position`. -/
def tol : ℚ := 1 / 1000000000

/-- `exit_position`: realize PnL on `qty_percent` of the position, append the
trade and equity point, and on an effectively-zero remainder record the
re-entry memory and reset the position state. -/
def exitPosition (s : State) (price : ℚ) (ts : TS) (qty_percent : ℚ) (reason : String)
    (exit_classification : Option String) : State :=
  if 0 < s.position_size then
    let eq0 := s.position_size * (qty_percent / 100)
    let exit_qty := if s.position_size < eq0 then s.position_size else eq0
    let pnl := (price - s.position_entry_price) * exit_qty
    let newEq := s.current_equity + pnl
    let tr : Trade :=
      { entry_time := s.position_entry_time, exit_time := ts,
        entry_price := s.position_entry_price, exit_price := price,
        quantity := exit_qty, pnl := pnl, reason := reason }
    let s1 := { s with current_equity := newEq,
                       position_size := s.position_size - exit_qty,
                       trades := s.trades ++ [tr],
                       equity_curve := s.equity_curve ++ [{ timestamp := some ts, equity := newEq }] }
    if s1.position_size ≤ tol then
      let s2 := { s1 with last_exit_price := some price,
                          last_entry_price := some s1.position_entry_price,
                          last_exit_reason := exit_classification.getD s1.last_exit_reason }
      resetPositionState s2
    else s1
  else s

/-- `self.tp1_filled = 1` after the TP1 exit. -/
def setTp1 (s : State) : State := { s with tp1_filled := 1 }

/-- `self.tp2_filled = 1` after the TP2 exit. -/
def setTp2 (s : State) : State := { s with tp2_filled := 1 }

/-- The tiered take-profit ladder of `on_tick` (priority 4): 50% of the
remaining size at `entry + tp1` (first time only), then 60% of the reduced
remainder at `entry + tp2`, then 100% of what remains at `entry + tp3`,
classified `profit`. -/
def tpPhase (s : State) (price : ℚ) (ts : TS) : State :=
  if s.params.use_tiered_tp then
    let entry := s.position_entry_price
    let s1 :=
      if s.tp1_filled = 0 ∧ entry + s.params.tp1_points ≤ price then
        setTp1 (exitPosition s price ts 50 rTP1 none)
      else s
    let s2 :=
      if s1.tp2_filled = 0 ∧ 0 < s1.tp1_filled ∧ 0 < s1.position_size ∧
          entry + s.params.tp2_points ≤ price then
        setTp2 (exitPosition s1 price ts 60 rTP2 none)
      else s1
    if 0 < s2.tp2_filled ∧ 0 < s2.position_size ∧ entry + s.params.tp3_points ≤ price then
      exitPosition s2 price ts 100 rTP3 (some rProfit)
    else s2
  else s

/-- `self.last_time_exit_date = tick_timestamp.date()` after a session-end exit. -/
def setTimeExitDate (s : State) (d : ℤ) : State := { s with last_time_exit_date := some d }

/-- The position-management block of `on_tick`, in strict priority order:
mandatory session-end exit, trailing-stop update, stop-loss check, tiered
take profit. -/
def mgmtPhase (s : State) (t : Tick) : State :=
  if 0 < s.position_size then
    if isNearSessionEnd s.params t.ts then
      setTimeExitDate (exitPosition s t.price t.ts 100 rSessionEnd (some rTime)) t.ts.day
    else
      let s1 := updateTrailingStop s t.price
      let hit := checkStopLossHit s1 t.price
      if hit.1 then exitPosition s1 t.price t.ts 100 (rMandatory ++ hit.2) (some hit.2)
      else tpPhase s1 t.price t.ts
  else s

/-- The entry block of `on_tick`: only from flat, outside the pre-close
blackout, after warm-up, with every enabled filter bullish and re-entry
permitted. -/
def entryPhase (s : State) (t : Tick) : State :=
  let row := s.bar_history.getLast?
  if s.position_size = 0 ∧ shouldAllowNewEntries s.params t.ts ∧
      s.min_bars_for_signals ≤ s.bar_history.length then
    if buySignal s row ∧ canReenter s t.price t.ts row then enterPosition s t.price t.ts
    else s
  else s

/-- Advance `self.last_processed_minute`. -/
def setLpm (s : State) (m : ℤ) : State := { s with last_processed_minute := some m }

/-- The bar-aggregation section of `on_tick`: initialize the minute tracker on
the very first tick; on a strictly newer minute, finalize the previous bar,
recompute indicators and advance the tracker. -/
def barPhase (s : State) (t : Tick) : State :=
  let cm := minuteKey t.ts
  let s0 := match s.last_processed_minute with
    | none => setLpm s cm
    | some _ => s
  match s0.last_processed_minute with
  | some m =>
    if m < cm then setLpm (updateIndicators (closeAndAddBar s0 m)) cm
    else s0
  | none => s0

/-- The forming-bar update of `on_tick` (runs on every tick). -/
def formingPhase (s : State) (t : Tick) : State :=
  { s with current_bar_data := updateCurrentBar s.current_bar_data t.ts t.price t.volume }

/-- `self.current_vwap_bull = tick_price > self.current_vwap` (false on NaN). -/
def setVwapBull (s : State) (b : Bool) : State := { s with current_vwap_bull := b }

/-- The per-tick VWAP update of `on_tick`, including `current_vwap_bull`. -/
def vwapPhase (s : State) (t : Tick) : State :=
  let s1 := vwapStep s t.price t.volume t.ts
  setVwapBull s1 (qGtPF t.price s1.current_vwap)

/-- Everything `on_tick` does before the entry and management blocks. -/
def prePhases (s : State) (t : Tick) : State :=
  vwapPhase (formingPhase (barPhase s t) t) t

/-- `on_tick`: the full per-tick transition of the engine. -/
def onTick (s : State) (t : Tick) : State :=
  mgmtPhase (entryPhase (prePhases s t) t) t

/-- Replay an ordered tick sequence through the engine. -/
def runTicks (s : State) (ticks : List Tick) : State := ticks.foldl onTick s

/-- Total quantity recorded across a list of trade records. -/
def qtySum (l : List Trade) : ℚ := (l.map Trade.quantity).sum

/-- The OHLCV-and-timestamp content of a closed bar (the part the aggregator
writes; indicator annotation does not touch it). -/
def ohlcv (b : Bar) : ℚ × ℚ × ℚ × ℚ × ℚ × ℤ :=
  (b.opn, b.high, b.low, b.close, b.volume, b.timestamp)

/-! ### Frame lemmas: which fields each phase leaves unchanged -/

/-- All position-tracking fields bundled. -/
def posView (s : State) : ℚ × ℚ × Option TS × ℚ × ℚ × ℚ × Bool × ℚ × ℚ :=
  (s.position_size, s.position_entry_price, s.position_entry_time, s.position_high_price,
   s.tp1_filled, s.tp2_filled, s.trailing_active, s.base_stop_price, s.trail_stop_price)

/-- All ledger and re-entry-memory fields bundled. -/
def ledgerView (s : State) :
    List Trade × List EquityPoint × ℚ × Option ℚ × Option ℚ × String × Option ℤ :=
  (s.trades, s.equity_curve, s.current_equity, s.last_exit_price, s.last_entry_price,
   s.last_exit_reason, s.last_time_exit_date)

/-- All bar-aggregation fields bundled. -/
def aggView (s : State) : List Bar × FormingBar × Option ℤ × ℕ × ℕ :=
  (s.bar_history, s.current_bar_data, s.last_processed_minute, s.max_bar_history_length,
   s.min_bars_for_signals)

/-- The non-aggregation, non-indicator part of the state: everything the
position/ledger/session logic reads or writes, bundled for frame reasoning. -/
def coreView (s : State) :
    (ℚ × ℚ × Option TS × ℚ × ℚ × ℚ × Bool × ℚ × ℚ) ×
    (List Trade × List EquityPoint × ℚ × Option ℚ × Option ℚ × String × Option ℤ) × Params :=
  (posView s, ledgerView s, s.params)

lemma closeAndAddBar_coreView (s : State) (m : ℤ) :
    coreView (closeAndAddBar s m) = coreView s := by
  unfold closeAndAddBar
  split <;> rfl

lemma updateIndicators_coreView (s : State) : coreView (updateIndicators s) = coreView s := by
  unfold updateIndicators
  split
  · rfl
  · split <;> rfl

lemma setLpm_coreView (s : State) (m : ℤ) : coreView (setLpm s m) = coreView s := rfl

lemma barPhase_coreView (s : State) (t : Tick) : coreView (barPhase s t) = coreView s := by
  unfold barPhase
  cases h : s.last_processed_minute with
  | none =>
    simp only [h, setLpm]
    rw [if_neg (lt_irrefl (minuteKey t.ts))]
    rfl
  | some m =>
    simp only [h]
    split
    · rw [setLpm_coreView, updateIndicators_coreView, closeAndAddBar_coreView]
    · rfl

lemma formingPhase_posView (s : State) (t : Tick) :
    posView (formingPhase s t) = posView s := rfl

lemma formingPhase_ledgerView (s : State) (t : Tick) :
    ledgerView (formingPhase s t) = ledgerView s := rfl

lemma setVwapBull_posView (s : State) (b : Bool) : posView (setVwapBull s b) = posView s := rfl

lemma setVwapBull_ledgerView (s : State) (b : Bool) :
    ledgerView (setVwapBull s b) = ledgerView s := rfl

lemma setVwapBull_params (s : State) (b : Bool) : (setVwapBull s b).params = s.params := rfl

lemma vwapStep_posView (s : State) (pr v : ℚ) (ts : TS) :
    posView (vwapStep s pr v ts) = posView s := by
  unfold vwapStep
  split <;> rfl

lemma vwapStep_ledgerView (s : State) (pr v : ℚ) (ts : TS) :
    ledgerView (vwapStep s pr v ts) = ledgerView s := by
  unfold vwapStep
  split <;> rfl

lemma vwapStep_params (s : State) (pr v : ℚ) (ts : TS) :
    (vwapStep s pr v ts).params = s.params := by
  unfold vwapStep
  split <;> rfl

lemma vwapPhase_posView (s : State) (t : Tick) : posView (vwapPhase s t) = posView s := by
  unfold vwapPhase
  rw [setVwapBull_posView, vwapStep_posView]

lemma vwapPhase_ledgerView (s : State) (t : Tick) :
    ledgerView (vwapPhase s t) = ledgerView s := by
  unfold vwapPhase
  rw [setVwapBull_ledgerView, vwapStep_ledgerView]

lemma vwapPhase_params (s : State) (t : Tick) : (vwapPhase s t).params = s.params := by
  unfold vwapPhase
  rw [setVwapBull_params, vwapStep_params]

lemma barPhase_posView (s : State) (t : Tick) : posView (barPhase s t) = posView s :=
  congrArg (fun c => c.1) (barPhase_coreView s t)

lemma barPhase_ledgerView (s : State) (t : Tick) :
    ledgerView (barPhase s t) = ledgerView s :=
  congrArg (fun c => c.2.1) (barPhase_coreView s t)

lemma barPhase_params (s : State) (t : Tick) : (barPhase s t).params = s.params :=
  congrArg (fun c => c.2.2) (barPhase_coreView s t)

lemma prePhases_posView (s : State) (t : Tick) : posView (prePhases s t) = posView s := by
  unfold prePhases
  rw [vwapPhase_posView, formingPhase_posView, barPhase_posView]

lemma prePhases_ledgerView (s : State) (t : Tick) :
    ledgerView (prePhases s t) = ledgerView s := by
  unfold prePhases
  rw [vwapPhase_ledgerView, formingPhase_ledgerView, barPhase_ledgerView]

lemma prePhases_params (s : State) (t : Tick) : (prePhases s t).params = s.params := by
  unfold prePhases formingPhase
  rw [vwapPhase_params]
  exact barPhase_params s t

/-- With a position open, the entry block does nothing. -/
lemma entryPhase_of_pos (s : State) (t : Tick) (h : s.position_size ≠ 0) :
    entryPhase s t = s := by
  unfold entryPhase
  rw [if_neg]
  intro hc
  exact h hc.1

lemma tol_pos : (0 : ℚ) < tol := by norm_num [tol]

lemma qtySum_nil : qtySum [] = 0 := rfl

lemma qtySum_append (a b : List Trade) : qtySum (a ++ b) = qtySum a + qtySum b := by
  simp [qtySum]

lemma qtySum_single (tr : Trade) : qtySum [tr] = tr.quantity := by
  simp [qtySum]

/-! ### Quantity conservation across exits -/

/-- One or more `exit_position` calls relate the states before and after: the
new trade records extend the old, the position stays nonnegative, the exited
quantity is nonnegative, and either the quantity plus the remainder exactly
equals the prior size, or the position was zeroed with at most the `1e-9`
effectively-zero residue forgiven. -/
def ConsStep (a b : State) : Prop :=
  ∃ tl, b.trades = a.trades ++ tl ∧ 0 ≤ b.position_size ∧ 0 ≤ qtySum tl ∧
    (b.position_size + qtySum tl = a.position_size ∨
     (b.position_size = 0 ∧ qtySum tl ≤ a.position_size ∧
      a.position_size ≤ qtySum tl + tol))

lemma consStep_size {a b : State} (h : ConsStep a b) : 0 ≤ b.position_size := by
  obtain ⟨tl, _, hp, _⟩ := h
  exact hp

lemma consStep_id {a b : State} (h0 : 0 ≤ a.position_size) (ht : b.trades = a.trades)
    (hs : b.position_size = a.position_size) : ConsStep a b := by
  refine ⟨[], by simp [ht], by rw [hs]; exact h0, le_refl 0, Or.inl ?_⟩
  rw [hs, qtySum_nil, add_zero]

lemma consStep_trans {a b c : State} (h1 : ConsStep a b) (h2 : ConsStep b c) :
    ConsStep a c := by
  obtain ⟨t1, e1, p1, q1, d1⟩ := h1
  obtain ⟨t2, e2, p2, q2, d2⟩ := h2
  refine ⟨t1 ++ t2, by rw [e2, e1, List.append_assoc], p2, ?_, ?_⟩
  · rw [qtySum_append]; linarith
  · rw [qtySum_append]
    rcases d1 with d1 | ⟨z1, l1, u1⟩
    · rcases d2 with d2 | ⟨z2, l2, u2⟩
      · exact Or.inl (by linarith)
      · exact Or.inr ⟨z2, by linarith, by linarith⟩
    · rcases d2 with d2 | ⟨z2, l2, u2⟩
      · exact Or.inr ⟨by linarith, by linarith, by linarith⟩
      · exact Or.inr ⟨z2, by linarith, by linarith⟩

/-- `exit_position` with a percentage in `[0, 100]` satisfies the conservation
relation. -/
lemma exitPosition_consStep (s : State) (price : ℚ) (ts : TS) (qp : ℚ) (r : String)
    (c : Option String) (h0 : 0 ≤ s.position_size) (hq0 : 0 ≤ qp) :
    ConsStep s (exitPosition s price ts qp r c) := by
  unfold exitPosition
  by_cases h : 0 < s.position_size
  · rw [if_pos h]
    dsimp only
    have hdiv : (0 : ℚ) ≤ qp / 100 := div_nonneg hq0 (by norm_num)
    have heq0 : (0 : ℚ) ≤ s.position_size * (qp / 100) := mul_nonneg h0 hdiv
    by_cases hcap : s.position_size < s.position_size * (qp / 100)
    · rw [if_pos hcap]
      rw [if_pos (by rw [sub_self]; exact le_of_lt tol_pos)]
      refine ⟨_, rfl, le_refl 0, ?_, Or.inr ⟨rfl, ?_, ?_⟩⟩
      · rw [qtySum_single]; exact h0
      · rw [qtySum_single]
      · rw [qtySum_single]; linarith [tol_pos]
    · rw [if_neg hcap]
      have hle : s.position_size * (qp / 100) ≤ s.position_size := le_of_not_lt hcap
      by_cases hrem : s.position_size - s.position_size * (qp / 100) ≤ tol
      · rw [if_pos hrem]
        refine ⟨_, rfl, le_refl 0, ?_, Or.inr ⟨rfl, ?_, ?_⟩⟩
        · rw [qtySum_single]; exact heq0
        · rw [qtySum_single]; exact hle
        · rw [qtySum_single]; linarith
      · rw [if_neg hrem]
        refine ⟨_, rfl, by linarith [not_le.mp hrem, tol_pos], ?_, Or.inl ?_⟩
        · rw [qtySum_single]; exact heq0
        · rw [qtySum_single]; ring
  · rw [if_neg h]
    exact consStep_id h0 rfl rfl

/-- Everything `update_trailing_stop` does not touch. -/
def trailFrameView (s : State) :
    Params × ℚ × ℚ × Option TS × ℚ × ℚ × ℚ ×
    List Trade × List EquityPoint × ℚ × Option ℚ × Option ℚ × String × Option ℤ :=
  (s.params, s.position_size, s.position_entry_price, s.position_entry_time,
   s.tp1_filled, s.tp2_filled, s.base_stop_price,
   s.trades, s.equity_curve, s.current_equity, s.last_exit_price, s.last_entry_price,
   s.last_exit_reason, s.last_time_exit_date)

lemma updHigh_frame (s : State) (p : ℚ) : trailFrameView (updHigh s p) = trailFrameView s := by
  unfold updHigh
  split <;> rfl

lemma updHigh_active (s : State) (p : ℚ) :
    (updHigh s p).trailing_active = s.trailing_active := by
  unfold updHigh
  split <;> rfl

lemma updHigh_trail (s : State) (p : ℚ) :
    (updHigh s p).trail_stop_price = s.trail_stop_price := by
  unfold updHigh
  split <;> rfl

lemma updateTrailingStop_frame (s : State) (p : ℚ) :
    trailFrameView (updateTrailingStop s p) = trailFrameView s := by
  unfold updateTrailingStop
  split
  · rfl
  · generalize hg : updHigh s p = x
    have hf : trailFrameView x = trailFrameView s := by rw [← hg]; exact updHigh_frame s p
    dsimp only
    repeat' split
    all_goals rw [← hf]
    all_goals rfl

/-- Once active, one trailing-stop update keeps the trail active and never
lowers it. -/
lemma updateTrailingStop_mono (s : State) (p : ℚ) (ha : s.trailing_active = true) :
    s.trail_stop_price ≤ (updateTrailingStop s p).trail_stop_price ∧
      (updateTrailingStop s p).trailing_active = true := by
  unfold updateTrailingStop
  split
  · exact ⟨le_refl _, ha⟩
  · generalize hg : updHigh s p = x
    have hact : x.trailing_active = true := by rw [← hg, updHigh_active]; exact ha
    have htr : x.trail_stop_price = s.trail_stop_price := by rw [← hg, updHigh_trail]
    dsimp only
    rw [if_neg (by simp [hact])]
    rw [if_pos hact]
    split
    · refine ⟨?_, hact⟩
      rw [← htr]
      exact le_of_lt (by assumption)
    · exact ⟨le_of_eq htr.symm, hact⟩

lemma setTp1_trades (s : State) : (setTp1 s).trades = s.trades := rfl

lemma setTp1_size (s : State) : (setTp1 s).position_size = s.position_size := rfl

lemma setTp2_trades (s : State) : (setTp2 s).trades = s.trades := rfl

lemma setTp2_size (s : State) : (setTp2 s).position_size = s.position_size := rfl

/-- The tiered take-profit ladder satisfies the conservation relation. -/
lemma tpPhase_consStep (s : State) (price : ℚ) (ts : TS) (h0 : 0 ≤ s.position_size) :
    ConsStep s (tpPhase s price ts) := by
  unfold tpPhase
  split
  · dsimp only
    have step1 : ∀ s1 : State, s1 = (if s.tp1_filled = 0 ∧
        s.position_entry_price + s.params.tp1_points ≤ price then
          setTp1 (exitPosition s price ts 50 rTP1 none) else s) → ConsStep s s1 := by
      intro s1 hs1
      subst hs1
      split
      · exact consStep_trans (exitPosition_consStep s price ts 50 rTP1 none h0 (by norm_num))
          (consStep_id (consStep_size (exitPosition_consStep s price ts 50 rTP1 none h0
            (by norm_num))) rfl rfl)
      · exact consStep_id h0 rfl rfl
    have c1 := step1 _ rfl
    have c1size := consStep_size c1
    set s1 := (if s.tp1_filled = 0 ∧
        s.position_entry_price + s.params.tp1_points ≤ price then
          setTp1 (exitPosition s price ts 50 rTP1 none) else s) with hs1def
    have c2 : ConsStep s1 (if s1.tp2_filled = 0 ∧ 0 < s1.tp1_filled ∧ 0 < s1.position_size ∧
        s.position_entry_price + s.params.tp2_points ≤ price then
          setTp2 (exitPosition s1 price ts 60 rTP2 none) else s1) := by
      split
      · exact consStep_trans (exitPosition_consStep s1 price ts 60 rTP2 none c1size (by norm_num))
          (consStep_id (consStep_size (exitPosition_consStep s1 price ts 60 rTP2 none c1size
            (by norm_num))) rfl rfl)
      · exact consStep_id c1size rfl rfl
    set s2 := (if s1.tp2_filled = 0 ∧ 0 < s1.tp1_filled ∧ 0 < s1.position_size ∧
        s.position_entry_price + s.params.tp2_points ≤ price then
          setTp2 (exitPosition s1 price ts 60 rTP2 none) else s1) with hs2def
    have c2size := consStep_size c2
    have c3 : ConsStep s2 (if 0 < s2.tp2_filled ∧ 0 < s2.position_size ∧
        s.position_entry_price + s.params.tp3_points ≤ price then
          exitPosition s2 price ts 100 rTP3 (some rProfit) else s2) := by
      split
      · exact exitPosition_consStep s2 price ts 100 rTP3 (some rProfit) c2size (by norm_num)
      · exact consStep_id c2size rfl rfl
    exact consStep_trans (consStep_trans c1 c2) c3
  · exact consStep_id h0 rfl rfl

lemma setTimeExitDate_trades (s : State) (d : ℤ) : (setTimeExitDate s d).trades = s.trades := rfl

lemma setTimeExitDate_size (s : State) (d : ℤ) :
    (setTimeExitDate s d).position_size = s.position_size := rfl

/-- The whole management block satisfies the conservation relation. -/
lemma mgmtPhase_consStep (s : State) (t : Tick) (h0 : 0 ≤ s.position_size) :
    ConsStep s (mgmtPhase s t) := by
  unfold mgmtPhase
  split
  · split
    · have he := exitPosition_consStep s t.price t.ts 100 rSessionEnd (some rTime) h0
        (by norm_num)
      exact consStep_trans he (consStep_id (consStep_size he) rfl rfl)
    · generalize hg : updateTrailingStop s t.price = x
      have hfr : trailFrameView x = trailFrameView s := by
        rw [← hg]; exact updateTrailingStop_frame s t.price
      have hsz : x.position_size = s.position_size := congrArg (fun v => v.2.1) hfr
      have htr : x.trades = s.trades := congrArg (fun v => v.2.2.2.2.2.2.2.1) hfr
      have c0 : ConsStep s x := consStep_id h0 htr hsz
      have hx0 : 0 ≤ x.position_size := by rw [hsz]; exact h0
      dsimp only
      split
      · exact consStep_trans c0
          (exitPosition_consStep x t.price t.ts 100 _ _ hx0 (by norm_num))
      · exact consStep_trans c0 (tpPhase_consStep x t.price t.ts hx0)
  · exact consStep_id h0 rfl rfl

/-- With a position open, `on_tick` is the pre-phases followed by management. -/
lemma onTick_open (s : State) (t : Tick) (h : 0 < s.position_size) :
    onTick s t = mgmtPhase (prePhases s t) t := by
  unfold onTick
  rw [entryPhase_of_pos _ t ?_]
  have hsz : (prePhases s t).position_size = s.position_size :=
    congrArg (fun v => v.1) (prePhases_posView s t)
  rw [hsz]
  exact ne_of_gt h

/-- `on_tick` on an open position satisfies the conservation relation. -/
lemma onTick_consStep (s : State) (t : Tick) (h0 : 0 < s.position_size) :
    ConsStep s (onTick s t) := by
  rw [onTick_open s t h0]
  have hsz : (prePhases s t).position_size = s.position_size :=
    congrArg (fun v => v.1) (prePhases_posView s t)
  have htr : (prePhases s t).trades = s.trades :=
    congrArg (fun v => v.1) (prePhases_ledgerView s t)
  exact consStep_trans (consStep_id (le_of_lt h0) htr hsz)
    (mgmtPhase_consStep _ t (by rw [hsz]; exact le_of_lt h0))

/-! ### Exact single-exit equations -/

/-- `exit_position` at 100%: the position is fully closed, the re-entry memory
is recorded and the position state reset. -/
lemma exitPosition_100 (s : State) (price : ℚ) (ts : TS) (r : String) (c : Option String)
    (h : 0 < s.position_size) :
    exitPosition s price ts 100 r c =
      { s with
        current_equity := s.current_equity + (price - s.position_entry_price) * s.position_size,
        trades := s.trades ++
          [⟨s.position_entry_time, ts, s.position_entry_price, price, s.position_size,
            (price - s.position_entry_price) * s.position_size, r⟩],
        equity_curve := s.equity_curve ++
          [⟨some ts, s.current_equity + (price - s.position_entry_price) * s.position_size⟩],
        last_exit_price := some price, last_entry_price := some s.position_entry_price,
        last_exit_reason := c.getD s.last_exit_reason,
        position_size := 0, position_entry_time := none, position_high_price := 0,
        base_stop_price := 0, trail_stop_price := 0, trailing_active := false,
        tp1_filled := 0, tp2_filled := 0 } := by
  have e1 : s.position_size * ((100 : ℚ) / 100) = s.position_size := by ring
  unfold exitPosition
  rw [if_pos h]
  dsimp only
  rw [e1]
  rw [if_neg (lt_irrefl s.position_size)]
  simp only [sub_self]
  rw [if_pos (le_of_lt tol_pos)]
  rfl

/-- `exit_position` at a partial percentage that leaves more than the `1e-9`
residue: the trade is recorded and the position reduced, nothing reset. -/
lemma exitPosition_keepOpen (s : State) (price : ℚ) (ts : TS) (qp : ℚ) (r : String)
    (c : Option String) (h : 0 < s.position_size)
    (hcap : ¬ s.position_size < s.position_size * (qp / 100))
    (hrem : tol < s.position_size - s.position_size * (qp / 100)) :
    exitPosition s price ts qp r c =
      { s with
        current_equity := s.current_equity +
          (price - s.position_entry_price) * (s.position_size * (qp / 100)),
        position_size := s.position_size - s.position_size * (qp / 100),
        trades := s.trades ++
          [⟨s.position_entry_time, ts, s.position_entry_price, price,
            s.position_size * (qp / 100),
            (price - s.position_entry_price) * (s.position_size * (qp / 100)), r⟩],
        equity_curve := s.equity_curve ++
          [⟨some ts, s.current_equity +
            (price - s.position_entry_price) * (s.position_size * (qp / 100))⟩] } := by
  unfold exitPosition
  rw [if_pos h]
  dsimp only
  rw [if_neg hcap]
  rw [if_neg (not_le.mpr hrem)]

/-- On an open position near session end, management performs exactly the
mandatory full exit with classification `time` and records the exit date,
evaluating no other check. -/
lemma mgmtPhase_sessionEnd (x : State) (t : Tick) (h1 : 0 < x.position_size)
    (h2 : isNearSessionEnd x.params t.ts = true) :
    (mgmtPhase x t).trades = x.trades ++
      [⟨x.position_entry_time, t.ts, x.position_entry_price, t.price, x.position_size,
        (t.price - x.position_entry_price) * x.position_size, rSessionEnd⟩] ∧
    (mgmtPhase x t).position_size = 0 ∧
    (mgmtPhase x t).last_exit_reason = rTime ∧
    (mgmtPhase x t).last_time_exit_date = some t.ts.day ∧
    (mgmtPhase x t).current_equity =
      x.current_equity + (t.price - x.position_entry_price) * x.position_size ∧
    (mgmtPhase x t).last_exit_price = some t.price := by
  unfold mgmtPhase
  rw [if_pos h1, if_pos h2, exitPosition_100 x t.price t.ts rSessionEnd (some rTime) h1]
  exact ⟨rfl, rfl, rfl, rfl, rfl, rfl⟩

/-- When all three take-profit thresholds are crossed on one tick and the
position is large enough that no intermediate remainder is treated as zero,
the ladder fires TP1 (50% of remaining), TP2 (60% of the reduced remainder)
and TP3 (all of the rest, classified `profit`) in order. -/
lemma tpPhase_cascade (x : State) (price : ℚ) (ts : TS)
    (h1 : 0 < x.position_size) (h2 : x.tp1_filled = 0) (h3 : x.tp2_filled = 0)
    (h4 : x.params.use_tiered_tp = true)
    (h6 : x.position_entry_price + x.params.tp3_points ≤ price)
    (h7 : x.params.tp1_points ≤ x.params.tp3_points)
    (h8 : x.params.tp2_points ≤ x.params.tp3_points)
    (h9 : 5 * tol < x.position_size) :
    (tpPhase x price ts).trades = x.trades ++
      [⟨x.position_entry_time, ts, x.position_entry_price, price,
        x.position_size * (50 / 100),
        (price - x.position_entry_price) * (x.position_size * (50 / 100)), rTP1⟩,
       ⟨x.position_entry_time, ts, x.position_entry_price, price,
        (x.position_size - x.position_size * (50 / 100)) * (60 / 100),
        (price - x.position_entry_price) *
          ((x.position_size - x.position_size * (50 / 100)) * (60 / 100)), rTP2⟩,
       ⟨x.position_entry_time, ts, x.position_entry_price, price,
        x.position_size - x.position_size * (50 / 100) -
          (x.position_size - x.position_size * (50 / 100)) * (60 / 100),
        (price - x.position_entry_price) *
          (x.position_size - x.position_size * (50 / 100) -
            (x.position_size - x.position_size * (50 / 100)) * (60 / 100)), rTP3⟩] ∧
    (tpPhase x price ts).position_size = 0 ∧
    (tpPhase x price ts).last_exit_reason = rProfit := by
  have htolp := tol_pos
  have ha2 : (0 : ℚ) < x.position_size - x.position_size * (50 / 100) := by linarith
  have hc2 : ¬ x.position_size - x.position_size * (50 / 100) <
      (x.position_size - x.position_size * (50 / 100)) * ((60 : ℚ) / 100) := by
    intro hc
    linarith
  have hr2 : tol < x.position_size - x.position_size * (50 / 100) -
      (x.position_size - x.position_size * (50 / 100)) * ((60 : ℚ) / 100) := by linarith
  have ha3 : (0 : ℚ) < x.position_size - x.position_size * (50 / 100) -
      (x.position_size - x.position_size * (50 / 100)) * ((60 : ℚ) / 100) := by linarith
  unfold tpPhase
  rw [if_pos h4]
  dsimp only
  rw [if_pos (And.intro h2 (by linarith))]
  rw [exitPosition_keepOpen x price ts 50 rTP1 none h1 (by linarith) (by linarith)]
  dsimp only [setTp1]
  rw [if_pos (And.intro h3 (And.intro (by norm_num) (And.intro ha2 (by linarith))))]
  rw [exitPosition_keepOpen _ price ts 60 rTP2 none ha2 hc2 hr2]
  dsimp only [setTp2]
  rw [if_pos (And.intro (by norm_num) (And.intro ha3 (by linarith)))]
  rw [exitPosition_100 _ price ts rTP3 (some rProfit) ha3]
  refine ⟨?_, rfl, rfl⟩
  dsimp only
  rw [List.append_assoc, List.append_assoc]
  rfl

/-! ### Trail preservation through exits -/

/-- If the position is still open afterwards, the step left the trailing-stop
fields untouched (a step that resets them also zeroes the position). -/
def TrailPres (a b : State) : Prop :=
  0 < b.position_size →
    0 < a.position_size ∧ b.trail_stop_price = a.trail_stop_price ∧
      b.trailing_active = a.trailing_active

lemma trailPres_refl (a : State) : TrailPres a a := fun h => ⟨h, rfl, rfl⟩

lemma trailPres_trans {a b c : State} (h1 : TrailPres a b) (h2 : TrailPres b c) :
    TrailPres a c := by
  intro hc
  obtain ⟨hb, e2, e3⟩ := h2 hc
  obtain ⟨ha, f2, f3⟩ := h1 hb
  exact ⟨ha, e2.trans f2, e3.trans f3⟩

lemma trailPres_ite {c : Prop} [Decidable c] {a b : State} (h : TrailPres a b) :
    TrailPres a (if c then b else a) := by
  split
  · exact h
  · exact trailPres_refl a

lemma trailPres_setTp1 (a : State) : TrailPres a (setTp1 a) := fun h => ⟨h, rfl, rfl⟩

lemma trailPres_setTp2 (a : State) : TrailPres a (setTp2 a) := fun h => ⟨h, rfl, rfl⟩

lemma trailPres_exit (s : State) (price : ℚ) (ts : TS) (qp : ℚ) (r : String)
    (c : Option String) : TrailPres s (exitPosition s price ts qp r c) := by
  unfold exitPosition
  by_cases h0 : 0 < s.position_size
  · rw [if_pos h0]
    dsimp only
    repeat' split
    all_goals
      first
        | (intro h; exact absurd h (lt_irrefl (0 : ℚ)))
        | (intro _; exact ⟨h0, rfl, rfl⟩)
  · rw [if_neg h0]
    exact trailPres_refl s

lemma tpPhase_trailPres (x : State) (price : ℚ) (ts : TS) :
    TrailPres x (tpPhase x price ts) := by
  unfold tpPhase
  by_cases ht : x.params.use_tiered_tp = true
  · rw [if_pos ht]
    dsimp only
    refine trailPres_trans (trailPres_trans
      (trailPres_ite (trailPres_trans (trailPres_exit _ _ _ _ _ _) (trailPres_setTp1 _)))
      (trailPres_ite (trailPres_trans (trailPres_exit _ _ _ _ _ _) (trailPres_setTp2 _))))
      (trailPres_ite (trailPres_exit _ _ _ _ _ _))
  · rw [if_neg ht]
    exact trailPres_refl x

/-- On a tick that leaves the position open, the management block keeps the
trail active and never lowers it (given it was active before). -/
lemma mgmtPhase_trail_mono (x : State) (t : Tick) (ha : x.trailing_active = true)
    (hopen : 0 < x.position_size) (hstill : 0 < (mgmtPhase x t).position_size) :
    x.trail_stop_price ≤ (mgmtPhase x t).trail_stop_price ∧
      (mgmtPhase x t).trailing_active = true := by
  unfold mgmtPhase at hstill ⊢
  rw [if_pos hopen] at hstill ⊢
  by_cases hnear : isNearSessionEnd x.params t.ts = true
  · rw [if_pos hnear] at hstill
    rw [exitPosition_100 x t.price t.ts rSessionEnd (some rTime) hopen] at hstill
    exact absurd hstill (lt_irrefl 0)
  · rw [if_neg hnear] at hstill ⊢
    dsimp only at hstill ⊢
    have hmono := updateTrailingStop_mono x t.price ha
    generalize hg : updateTrailingStop x t.price = y at hstill hmono ⊢
    obtain ⟨hm1, hm2⟩ := hmono
    by_cases hhit : (checkStopLossHit y t.price).1 = true
    · rw [if_pos hhit] at hstill ⊢
      obtain ⟨hy, e1, e2⟩ := trailPres_exit y t.price t.ts 100 _ _ hstill
      rw [e1, e2]
      exact ⟨hm1, hm2⟩
    · rw [if_neg hhit] at hstill ⊢
      obtain ⟨hy, e1, e2⟩ := tpPhase_trailPres y t.price t.ts hstill
      rw [e1, e2]
      exact ⟨hm1, hm2⟩

/-! ### The entry and management blocks leave aggregation and VWAP state alone -/

/-- Everything the position/ledger logic never writes: bar aggregation state,
VWAP accumulators and warm-up constants. -/
def otherView (s : State) :
    List Bar × FormingBar × Option ℤ × ℚ × ℚ × Option ℤ × PF × Bool × ℕ × ℕ :=
  (s.bar_history, s.current_bar_data, s.last_processed_minute,
   s.daily_vwap_sum_tpv, s.daily_vwap_sum_volume, s.last_vwap_day,
   s.current_vwap, s.current_vwap_bull,
   s.max_bar_history_length, s.min_bars_for_signals)

lemma otherView_ite {c : Prop} [Decidable c] {a b : State}
    (h : otherView b = otherView a) : otherView (if c then b else a) = otherView a := by
  split
  · exact h
  · rfl

lemma exitPosition_otherView (s : State) (price : ℚ) (ts : TS) (qp : ℚ) (r : String)
    (c : Option String) : otherView (exitPosition s price ts qp r c) = otherView s := by
  unfold exitPosition
  by_cases h0 : 0 < s.position_size
  · rw [if_pos h0]
    dsimp only
    repeat' split
    all_goals rfl
  · rw [if_neg h0]

lemma enterPosition_otherView (s : State) (price : ℚ) (ts : TS) :
    otherView (enterPosition s price ts) = otherView s := by
  unfold enterPosition
  split <;> rfl

lemma updateTrailingStop_otherView (s : State) (p : ℚ) :
    otherView (updateTrailingStop s p) = otherView s := by
  unfold updateTrailingStop
  split
  · rfl
  · generalize hg : updHigh s p = x
    have hf : otherView x = otherView s := by
      rw [← hg]; unfold updHigh; split <;> rfl
    dsimp only
    repeat' split
    all_goals rw [← hf]
    all_goals rfl

lemma tpPhase_otherView (x : State) (price : ℚ) (ts : TS) :
    otherView (tpPhase x price ts) = otherView x := by
  unfold tpPhase
  by_cases ht : x.params.use_tiered_tp = true
  · rw [if_pos ht]
    dsimp only
    refine (otherView_ite ?_).trans ((otherView_ite ?_).trans (otherView_ite ?_))
    · exact exitPosition_otherView _ _ _ _ _ _
    · exact exitPosition_otherView _ _ _ _ _ _
    · exact exitPosition_otherView _ _ _ _ _ _
  · rw [if_neg ht]

lemma mgmtPhase_otherView (x : State) (t : Tick) :
    otherView (mgmtPhase x t) = otherView x := by
  unfold mgmtPhase
  by_cases h0 : 0 < x.position_size
  · rw [if_pos h0]
    by_cases hnear : isNearSessionEnd x.params t.ts = true
    · rw [if_pos hnear]
      exact exitPosition_otherView _ _ _ _ _ _
    · rw [if_neg hnear]
      dsimp only
      generalize hg : updateTrailingStop x t.price = y
      have hf : otherView y = otherView x := by
        rw [← hg]; exact updateTrailingStop_otherView x t.price
      split
      · exact (exitPosition_otherView _ _ _ _ _ _).trans hf
      · exact (tpPhase_otherView _ _ _).trans hf
  · rw [if_neg h0]

lemma entryPhase_otherView (x : State) (t : Tick) :
    otherView (entryPhase x t) = otherView x := by
  unfold entryPhase
  dsimp only
  repeat' split
  all_goals first
    | rfl
    | exact enterPosition_otherView _ _ _

/-- With no position, the management block does nothing. -/
lemma mgmtPhase_flat (x : State) (t : Tick) (h : ¬ 0 < x.position_size) :
    mgmtPhase x t = x := by
  unfold mgmtPhase
  rw [if_neg h]

/-- A same-day `time` exit memory makes `can_reenter` false, whatever the
indicators say. -/
lemma canReenter_time_gate (x : State) (price : ℚ) (ts : TS) (row : Option Bar) (pr : ℚ)
    (hlep : x.last_exit_price = some pr) (hr : x.last_exit_reason = rTime)
    (hd : x.last_time_exit_date = some ts.day) :
    canReenter x price ts row = false := by
  unfold canReenter
  rw [hlep]
  rw [if_pos (And.intro hr hd)]

/-- A false `can_reenter` blocks the entry block entirely. -/
lemma entryPhase_no_reentry (x : State) (t : Tick)
    (h : canReenter x t.price t.ts x.bar_history.getLast? = false) :
    entryPhase x t = x := by
  unfold entryPhase
  dsimp only
  split
  · rw [if_neg fun hc => Bool.false_ne_true (h ▸ hc.2)]
  · rfl

/-- No new minute: the bar-aggregation section does nothing. -/
lemma barPhase_stale (s : State) (t : Tick) (m : ℤ)
    (hlpm : s.last_processed_minute = some m) (h : ¬ m < minuteKey t.ts) :
    barPhase s t = s := by
  unfold barPhase
  simp only [hlpm]
  rw [if_neg h]

/-- A strictly newer minute: close the previous bar, recompute indicators,
advance the tracker. -/
lemma barPhase_new (s : State) (t : Tick) (m : ℤ)
    (hlpm : s.last_processed_minute = some m) (h : m < minuteKey t.ts) :
    barPhase s t = setLpm (updateIndicators (closeAndAddBar s m)) (minuteKey t.ts) := by
  unfold barPhase
  simp only [hlpm]
  rw [if_pos h]

/-- Absorbing a tick always adds its volume to the forming bar. -/
lemma updateCurrentBar_volume (cb : FormingBar) (ts : TS) (p v : ℚ) :
    (updateCurrentBar cb ts p v).volume = cb.volume + v := by
  unfold updateCurrentBar
  split <;> rfl

/-- Absorbing a tick always leaves the forming bar nonempty. -/
lemma updateCurrentBar_isSome (cb : FormingBar) (ts : TS) (p v : ℚ) :
    ((updateCurrentBar cb ts p v).opn).isSome = true := by
  unfold updateCurrentBar
  split <;> rfl

/-- Same-day VWAP update: no reset, both accumulators grow by this tick. -/
lemma vwapStep_sameDay (s : State) (p v : ℚ) (ts : TS)
    (hday : s.last_vwap_day = some ts.day) :
    (vwapStep s p v ts).daily_vwap_sum_tpv = s.daily_vwap_sum_tpv + p * v ∧
    (vwapStep s p v ts).daily_vwap_sum_volume = s.daily_vwap_sum_volume + v ∧
    (vwapStep s p v ts).current_bar_data = s.current_bar_data := by
  unfold vwapStep
  rw [if_neg (by simp [hday])]
  exact ⟨rfl, rfl, rfl⟩

/-- An empty forming bar closes to nothing. -/
lemma closeAndAddBar_none (s : State) (m : ℤ) (h : s.current_bar_data.opn = none) :
    closeAndAddBar s m = s := by
  unfold closeAndAddBar
  simp only [h]

/-- A nonempty forming bar is finalized, stamped with the completed minute and
appended to the bounded history, and the forming state is reset. -/
lemma closeAndAddBar_some (s : State) (m : ℤ) (o : ℚ) (h : s.current_bar_data.opn = some o) :
    closeAndAddBar s m =
      { s with
        bar_history := boundHistory s.max_bar_history_length (s.bar_history ++
          [⟨o, s.current_bar_data.high.getD o, s.current_bar_data.low.getD o,
            s.current_bar_data.close.getD o, s.current_bar_data.volume, m,
            none, none, none, none, none, none, none⟩]),
        current_bar_data := emptyForming } := by
  unfold closeAndAddBar
  simp only [h]

/-- Indicator annotation does not change the OHLCV content of any bar content. -/
lemma updateIndicators_ohlcv (s : State) :
    (updateIndicators s).bar_history.map ohlcv = s.bar_history.map ohlcv := by
  unfold updateIndicators
  split
  · rfl
  · split
    · rfl
    · rename_i lastBar hlast
      dsimp only
      have hdl : s.bar_history.dropLast ++ [lastBar] = s.bar_history := by
        have hne : s.bar_history ≠ [] := by
          intro hc
          rw [hc] at hlast
          exact absurd hlast (by simp)
        have := List.dropLast_append_getLast hne
        rwa [List.getLast_eq_iff_getLast?_eq_some hne |>.mpr hlast] at this
      conv_rhs => rw [← hdl]
      rw [List.map_append, List.map_append]
      refine congrArg (fun z => List.map ohlcv s.bar_history.dropLast ++ [z]) ?_
      unfold ohlcv
      repeat' split
      all_goals rfl

/-- LPM field of each phase of `on_tick`. -/
lemma setLpm_lpm (s : State) (m : ℤ) : (setLpm s m).last_processed_minute = some m := rfl

lemma updateIndicators_cb (s : State) :
    (updateIndicators s).current_bar_data = s.current_bar_data := by
  unfold updateIndicators
  split
  · rfl
  · split <;> rfl

/-! ### More frame and evaluation helpers -/

lemma setVwapBull_tpv (x : State) (b : Bool) :
    (setVwapBull x b).daily_vwap_sum_tpv = x.daily_vwap_sum_tpv := rfl

lemma setVwapBull_vol (x : State) (b : Bool) :
    (setVwapBull x b).daily_vwap_sum_volume = x.daily_vwap_sum_volume := rfl

lemma setVwapBull_cb (x : State) (b : Bool) :
    (setVwapBull x b).current_bar_data = x.current_bar_data := rfl

lemma vwapPhase_bar_history (x : State) (t : Tick) :
    (vwapPhase x t).bar_history = x.bar_history := by
  unfold vwapPhase vwapStep
  split <;> rfl

lemma vwapPhase_cb (x : State) (t : Tick) :
    (vwapPhase x t).current_bar_data = x.current_bar_data := by
  unfold vwapPhase vwapStep
  split <;> rfl

lemma vwapPhase_lpm (x : State) (t : Tick) :
    (vwapPhase x t).last_processed_minute = x.last_processed_minute := by
  unfold vwapPhase vwapStep
  split <;> rfl

lemma updateTrailingStop_off (s : State) (p : ℚ) (h : s.params.use_trail_stop = false) :
    updateTrailingStop s p = s := by
  unfold updateTrailingStop
  rw [if_pos (Or.inl (by simp [h]))]

lemma tpPhase_off (s : State) (price : ℚ) (ts : TS) (h : s.params.use_tiered_tp = false) :
    tpPhase s price ts = s := by
  unfold tpPhase
  rw [if_neg (by simp [h])]

lemma checkStopLossHit_miss (s : State) (price : ℚ) (h : getEffectiveStopPrice s < price) :
    checkStopLossHit s price = (false, rNone) := by
  unfold checkStopLossHit
  rw [if_neg (not_le.mpr h)]

lemma getEffectiveStopPrice_congr {a b : State} (h1 : a.trailing_active = b.trailing_active)
    (h2 : a.trail_stop_price = b.trail_stop_price)
    (h3 : a.base_stop_price = b.base_stop_price) :
    getEffectiveStopPrice a = getEffectiveStopPrice b := by
  unfold getEffectiveStopPrice
  rw [h1, h2, h3]

/-- A tick on an open position that triggers none of the session-end, trailing,
stop or take-profit logic leaves `on_tick` at its pre-phases. -/
lemma mgmtPhase_inert (x : State) (t : Tick)
    (hopen : 0 < x.position_size) (hts : x.params.use_trail_stop = false)
    (htp : x.params.use_tiered_tp = false)
    (hnear : isNearSessionEnd x.params t.ts = false)
    (hstop : getEffectiveStopPrice x < t.price) :
    mgmtPhase x t = x := by
  unfold mgmtPhase
  rw [if_pos hopen, if_neg (by simp [hnear])]
  dsimp only
  rw [updateTrailingStop_off x t.price hts]
  rw [if_neg (by simp [checkStopLossHit_miss x t.price hstop])]
  exact tpPhase_off x t.price t.ts htp

lemma onTick_inert (s : State) (t : Tick)
    (hopen : 0 < s.position_size) (hts : s.params.use_trail_stop = false)
    (htp : s.params.use_tiered_tp = false)
    (hnear : isNearSessionEnd s.params t.ts = false)
    (hstop : getEffectiveStopPrice s < t.price) :
    onTick s t = prePhases s t := by
  rw [onTick_open s t hopen]
  have hp := prePhases_posView s t
  simp only [posView, Prod.mk.injEq] at hp
  obtain ⟨e1, e2, e3, e4, e5, e6, e7, e8, e9⟩ := hp
  have hparams := prePhases_params s t
  apply mgmtPhase_inert
  · rw [e1]; exact hopen
  · rw [hparams]; exact hts
  · rw [hparams]; exact htp
  · rw [hparams]; exact hnear
  · rw [getEffectiveStopPrice_congr e7 e9 e8]; exact hstop

lemma boundHistory_map (f : α → β) (n : ℕ) (xs : List α) :
    (boundHistory n xs).map f = boundHistory n (xs.map f) := by
  unfold boundHistory
  rw [List.length_map]
  split
  · exact List.map_tail f xs
  · rfl

lemma boundHistory_length_le (n : ℕ) (xs : List α) (b : α) (h : xs.length ≤ n) :
    (boundHistory n (xs ++ [b])).length ≤ n := by
  unfold boundHistory
  split
  · rw [List.length_tail, List.length_append, List.length_singleton]
    omega
  · rename_i hc
    rw [List.length_append, List.length_singleton] at hc ⊢
    omega

/-! ### Claim theorems -/

/-- C4 counterexample state: trailing active with a trail strictly above the
base stop but not positive (reachable with entry 10, `base_sl_points` 15,
`trail_activation_points` 2, `trail_distance_points` 13 and a high of 12). -/
def c4State : State :=
  { initState defaultParams with
    position_size := 5, position_entry_price := 10, position_high_price := 12,
    trailing_active := true, trail_stop_price := -1, base_stop_price := -5 }

/-- C4, counterexample: with trailing active and a trail above the base stop,
the claim predicts `effective = max(base, trail)`; but because the guard in
`get_effective_stop_price` compares the trail with 0 (not with the base), the
code returns the base stop (−5) instead of `max(−5, −1) = −1`. -/
theorem claim_C4_counterexample :
    c4State.trailing_active = true ∧ c4State.base_stop_price < c4State.trail_stop_price ∧
    getEffectiveStopPrice c4State = -5 ∧
    getEffectiveStopPrice c4State ≠ max c4State.base_stop_price c4State.trail_stop_price := by
  refine ⟨rfl, by norm_num [c4State, initState, defaultParams], ?_, ?_⟩ <;>
    norm_num [getEffectiveStopPrice, c4State, initState, defaultParams]

/-- C4, amended: the effective stop is always at least the base stop; it
equals the base stop when trailing is inactive or the trail is not positive,
and `max(base, trail)` when trailing is active with a positive trail. -/
theorem claim_C4_effective_stop_floor (s : State) :
    s.base_stop_price ≤ getEffectiveStopPrice s ∧
    getEffectiveStopPrice s =
      (if s.trailing_active = true ∧ 0 < s.trail_stop_price
       then max s.base_stop_price s.trail_stop_price
       else s.base_stop_price) := by
  constructor
  · unfold getEffectiveStopPrice
    split
    · exact le_refl _
    · exact le_max_left _ _
  · unfold getEffectiveStopPrice
    by_cases hA : s.trailing_active = true
    · by_cases hT : s.trail_stop_price ≤ 0
      · rw [if_pos (Or.inr hT), if_neg fun hc => absurd hc.2 (not_lt.mpr hT)]
      · rw [if_neg (by simp [hA, hT]), if_pos ⟨hA, lt_of_not_le hT⟩]
    · rw [if_pos (Or.inl hA), if_neg fun hc => hA hc.1]

/-- C10: entering from flat with nonnegative equity and risk fraction and a
positive stop distance always yields a position of at least 1 unit; when the
truncated risk-based size is 0, exactly 1 unit is bought. -/
theorem claim_C10_min_position_size (s : State) (price : ℚ) (ts : TS)
    (hflat : s.position_size = 0) (heq : 0 ≤ s.current_equity)
    (hrisk : 0 ≤ s.params.risk_per_trade_percent) (hsl : 0 < s.params.base_sl_points) :
    1 ≤ (enterPosition s price ts).position_size ∧
    (pyInt (s.current_equity * (s.params.risk_per_trade_percent / 100) /
        s.params.base_sl_points) = 0 →
      (enterPosition s price ts).position_size = 1) := by
  unfold enterPosition
  rw [if_pos hflat]
  dsimp only
  have hq0 : (0 : ℚ) ≤ s.current_equity * (s.params.risk_per_trade_percent / 100) /
      s.params.base_sl_points :=
    div_nonneg (mul_nonneg heq (div_nonneg hrisk (by norm_num))) (le_of_lt hsl)
  have hpy : pyInt (s.current_equity * (s.params.risk_per_trade_percent / 100) /
      s.params.base_sl_points) =
      Int.floor (s.current_equity * (s.params.risk_per_trade_percent / 100) /
        s.params.base_sl_points) := by
    unfold pyInt
    rw [if_neg (not_lt.mpr hq0)]
  constructor
  · by_cases hz : pyInt (s.current_equity * (s.params.risk_per_trade_percent / 100) /
        s.params.base_sl_points) = 0
    · rw [if_pos hz]
      norm_num
    · rw [if_neg hz]
      have hge : 0 ≤ Int.floor (s.current_equity * (s.params.risk_per_trade_percent / 100) /
          s.params.base_sl_points) := Int.floor_nonneg.mpr hq0
      rw [hpy] at hz ⊢
      have h1 : 1 ≤ Int.floor (s.current_equity * (s.params.risk_per_trade_percent / 100) /
          s.params.base_sl_points) := lt_of_le_of_ne hge (Ne.symm hz)
      exact_mod_cast h1
  · intro hz
    rw [if_pos hz]
    norm_num

/-- C10 witness: with equity 10 the risk-based size truncates to 0 and the
engine still enters with size 1. -/
theorem claim_C10_min_position_size_witness :
    pyInt ((initState { defaultParams with initial_capital := 10 }).current_equity *
        ((initState { defaultParams with initial_capital := 10 }).params.risk_per_trade_percent / 100) /
        (initState { defaultParams with initial_capital := 10 }).params.base_sl_points) = 0 ∧
    (enterPosition (initState { defaultParams with initial_capital := 10 }) 100
        ⟨0, 600⟩).position_size = 1 :=
  ⟨by norm_num [pyInt, initState, defaultParams],
   (claim_C10_min_position_size (initState { defaultParams with initial_capital := 10 })
     100 ⟨0, 600⟩ rfl (by norm_num [initState, defaultParams])
     (by norm_num [initState, defaultParams]) (by norm_num [initState, defaultParams])).2
     (by norm_num [pyInt, initState, defaultParams])⟩

/-- C8: replay determinism — two fresh engines with the same configuration,
fed the same ordered tick sequence, produce identical trade records and
identical equity curves; the evolution is a pure function of prior state and
tick. -/
theorem claim_C8_replay_deterministic (p : Params) (ticks : List Tick) (s1 s2 : State)
    (h1 : s1 = initState p) (h2 : s2 = initState p) :
    (runTicks s1 ticks).trades = (runTicks s2 ticks).trades ∧
    (runTicks s1 ticks).equity_curve = (runTicks s2 ticks).equity_curve := by
  subst h1
  subst h2
  exact ⟨rfl, rfl⟩

/-- C8 witness at a concrete configuration and a one-tick stream. -/
theorem claim_C8_replay_deterministic_witness :
    (runTicks (initState defaultParams) [⟨⟨0, 600⟩, 100, 1⟩]).trades =
      (runTicks (initState defaultParams) [⟨⟨0, 600⟩, 100, 1⟩]).trades ∧
    (runTicks (initState defaultParams) [⟨⟨0, 600⟩, 100, 1⟩]).equity_curve =
      (runTicks (initState defaultParams) [⟨⟨0, 600⟩, 100, 1⟩]).equity_curve :=
  claim_C8_replay_deterministic defaultParams [⟨⟨0, 600⟩, 100, 1⟩] _ _ rfl rfl

/-- C7 counterexample: on closes `[10, 11, 10, 9]` with period 2 the first
defined rolling window of the loss series is `[0, 0]` (the leading `0` that
`where()` makes of the `diff()` NaN, then the clipped gain day), so a rolling
loss mean is `0`; `_calculate_rsi_latest` (strategy.py) then sets `RS = ∞` and
returns RSI `100`, not the claimed `100 − 100/(1+0) = 0`, while `RSIIndicator`
(indicators.py) returns `0` on the same closes and NaN (`0/0`) on a flat
series — also not always `0`. -/
theorem claim_C7_counterexample :
    rsiStrategyLatest 2 [10, 11, 10, 9] = some 100 ∧
    rsiStrategyLatest 2 [10, 11, 10, 9] ≠ some 0 ∧
    rsiIndicatorCalc 2 [10, 11, 10, 9] = some 0 ∧
    rsiIndicatorCalc 2 [5, 5, 5, 5] = none := by
  refine ⟨?_, ?_, ?_, ?_⟩ <;>
    norm_num [rsiStrategyLatest, rsiIndicatorCalc, takeLast, diffs, slidingMeans,
      gainParts, lossParts, List.range_succ]

/-- C7, amended: when the rolling loss mean vanishes, the RSI of strategy.py sets
`RS = +∞` for the whole series and reports 100; the RSIIndicator of indicators.py
replaces an infinite RS by 0 and reports `100 − 100/(1+0) = 0` when the gain
mean is nonzero, and NaN when gains and losses are both 0. -/
theorem claim_C7_rsi_zero_losses (n : ℕ) (cs : List ℚ) (hn : n + 1 ≤ cs.length) :
    (((slidingMeans n (0 :: lossParts (diffs (takeLast (2 * n) cs)))).all
        fun x => decide (x ≠ 0)) = false →
      rsiStrategyLatest n cs = some 100) ∧
    ((takeLast n (0 :: lossParts (diffs (takeLast (2 * n) cs)))).sum / n = 0 →
      (takeLast n (0 :: gainParts (diffs (takeLast (2 * n) cs)))).sum / n ≠ 0 →
      rsiIndicatorCalc n cs = some 0) ∧
    ((takeLast n (0 :: lossParts (diffs (takeLast (2 * n) cs)))).sum / n = 0 →
      (takeLast n (0 :: gainParts (diffs (takeLast (2 * n) cs)))).sum / n = 0 →
      rsiIndicatorCalc n cs = none) := by
  refine ⟨?_, ?_, ?_⟩
  · intro hall
    unfold rsiStrategyLatest
    rw [if_neg (not_lt.mpr hn)]
    dsimp only
    rw [if_neg fun hc => Bool.false_ne_true (hall ▸ hc)]
  · intro hl hg
    unfold rsiIndicatorCalc
    rw [if_neg (not_lt.mpr hn)]
    dsimp only
    rw [if_neg (by simp [hl]), if_pos hg]
    norm_num
  · intro hl hg
    unfold rsiIndicatorCalc
    rw [if_neg (not_lt.mpr hn)]
    dsimp only
    rw [if_neg (by simp [hl]), if_neg (by simp [hg])]

/-- C1 counterexample state: an open position (trailing and tiered TP disabled,
stop not in reach) with the minute tracker at 15:30, past the 15:15 close. -/
def c1State : State :=
  { initState { defaultParams with use_trail_stop := false, use_tiered_tp := false } with
    position_size := 66, position_entry_price := 100, position_entry_time := some ⟨0, 600⟩,
    position_high_price := 100, base_stop_price := 85,
    last_processed_minute := some 930 }

/-- C1, counterexample: on a tick *past* the session close (15:30, with close
15:15), `is_near_session_end` is false (`0 < time_to_end` fails), so no
mandatory exit fires: the position stays open, no trade is recorded, and the
exit reason never becomes `time` — contradicting the claim text "or past the
session close". -/
theorem claim_C1_counterexample :
    c1State.params.is_intraday = true ∧
    minutesToEnd c1State.params ⟨0, 930⟩ < 0 ∧
    0 < c1State.position_size ∧
    (onTick c1State ⟨⟨0, 930⟩, 100, 1⟩).position_size = 66 ∧
    (onTick c1State ⟨⟨0, 930⟩, 100, 1⟩).trades = [] ∧
    (onTick c1State ⟨⟨0, 930⟩, 100, 1⟩).last_exit_reason ≠ rTime := by
  have hin : onTick c1State ⟨⟨0, 930⟩, 100, 1⟩ = prePhases c1State ⟨⟨0, 930⟩, 100, 1⟩ := by
    apply onTick_inert
    · norm_num [c1State, initState, defaultParams]
    · rfl
    · rfl
    · simp [isNearSessionEnd, minutesToEnd, c1State, initState, defaultParams]
      norm_num
    · norm_num [getEffectiveStopPrice, c1State, initState, defaultParams]
  have hp := prePhases_posView c1State ⟨⟨0, 930⟩, 100, 1⟩
  simp only [posView, Prod.mk.injEq] at hp
  obtain ⟨e1, _, _, _, _, _, _, _, _⟩ := hp
  have hl := prePhases_ledgerView c1State ⟨⟨0, 930⟩, 100, 1⟩
  simp only [ledgerView, Prod.mk.injEq] at hl
  obtain ⟨f1, _, _, _, _, f6, _⟩ := hl
  refine ⟨rfl, by norm_num [minutesToEnd, c1State, initState, defaultParams],
    by norm_num [c1State, initState, defaultParams], ?_, ?_, ?_⟩
  · rw [hin, e1]
    norm_num [c1State, initState, defaultParams]
  · rw [hin, f1]
    rfl
  · rw [hin, f6]
    intro hc
    exact absurd hc (by simp [c1State, initState, defaultParams, rNone, rTime])

/-- C1, amended: the mandatory session-end exit fires exactly on ticks
strictly before the close and within `exit_before_close` minutes of it
(`0 < time_to_end ≤ exit_before_close`); on such ticks, while a position is
open, `on_tick` performs a 100% exit classified `time`, records the exit date,
and evaluates no trailing/stop/TP logic — the single recorded trade carries
the entire position size. -/
theorem claim_C1_session_end_exit (s : State) (t : Tick) (hopen : 0 < s.position_size)
    (hnear : isNearSessionEnd s.params t.ts = true) :
    (onTick s t).position_size = 0 ∧
    (onTick s t).last_exit_reason = rTime ∧
    (onTick s t).last_time_exit_date = some t.ts.day ∧
    (onTick s t).trades = s.trades ++
      [⟨s.position_entry_time, t.ts, s.position_entry_price, t.price, s.position_size,
        (t.price - s.position_entry_price) * s.position_size, rSessionEnd⟩] ∧
    (onTick s t).current_equity =
      s.current_equity + (t.price - s.position_entry_price) * s.position_size := by
  rw [onTick_open s t hopen]
  have hp := prePhases_posView s t
  simp only [posView, Prod.mk.injEq] at hp
  obtain ⟨e1, e2, e3, e4, e5, e6, e7, e8, e9⟩ := hp
  have hl := prePhases_ledgerView s t
  simp only [ledgerView, Prod.mk.injEq] at hl
  obtain ⟨f1, f2, f3, f4, f5, f6, f7⟩ := hl
  have hparams := prePhases_params s t
  have hm := mgmtPhase_sessionEnd (prePhases s t) t (by rw [e1]; exact hopen)
    (by rw [hparams]; exact hnear)
  obtain ⟨m1, m2, m3, m4, m5, m6⟩ := hm
  refine ⟨m2, m3, m4, ?_, ?_⟩
  · rw [m1, f1, e3, e2, e1]
  · rw [m5, f3, e2, e1]

/-- C1 witness state: open position with the minute tracker at 15:00, fifteen
minutes before the 15:15 close. -/
def c1wState : State :=
  { initState defaultParams with
    position_size := 66, position_entry_price := 100,
    position_entry_time := some ⟨0, 600⟩, position_high_price := 100, base_stop_price := 85,
    last_processed_minute := some 900 }

/-- C1 witness: at 15:00 (within the 20-minute window) the open position is
fully liquidated with reason `time`. -/
theorem claim_C1_session_end_exit_witness :
    (onTick c1wState ⟨⟨0, 900⟩, 110, 1⟩).position_size = 0 ∧
    (onTick c1wState ⟨⟨0, 900⟩, 110, 1⟩).last_exit_reason = rTime ∧
    (onTick c1wState ⟨⟨0, 900⟩, 110, 1⟩).last_time_exit_date = some 0 := by
  have h := claim_C1_session_end_exit c1wState ⟨⟨0, 900⟩, 110, 1⟩
    (by norm_num [c1wState, initState, defaultParams])
    (by simp [isNearSessionEnd, minutesToEnd, c1wState, initState, defaultParams]
        norm_num)
  exact ⟨h.1, h.2.1, h.2.2.1⟩

/-- C6: with a same-day `time` exit recorded, no entry fires on any tick of
that day — the position stays flat and the ledger untouched, regardless of
every indicator and filter. -/
theorem claim_C6_time_exit_blocks_reentry (s : State) (t : Tick) (pr : ℚ)
    (hflat : s.position_size = 0) (hlep : s.last_exit_price = some pr)
    (hr : s.last_exit_reason = rTime) (hd : s.last_time_exit_date = some t.ts.day) :
    (onTick s t).position_size = 0 ∧ (onTick s t).trades = s.trades ∧
    (onTick s t).current_equity = s.current_equity := by
  unfold onTick
  have hp := prePhases_posView s t
  simp only [posView, Prod.mk.injEq] at hp
  obtain ⟨e1, _, _, _, _, _, _, _, _⟩ := hp
  have hl := prePhases_ledgerView s t
  simp only [ledgerView, Prod.mk.injEq] at hl
  obtain ⟨f1, f2, f3, f4, f5, f6, f7⟩ := hl
  have hcr := canReenter_time_gate (prePhases s t) t.price t.ts
    ((prePhases s t).bar_history.getLast?) pr (by rw [f4]; exact hlep)
    (by rw [f6]; exact hr) (by rw [f7]; exact hd)
  rw [entryPhase_no_reentry _ t hcr]
  rw [mgmtPhase_flat _ t (by rw [e1, hflat]; exact lt_irrefl 0)]
  exact ⟨by rw [e1, hflat], f1, f3⟩

/-- C6 witness state: flat, after a same-day session-end exit. -/
def c6State : State :=
  { initState defaultParams with
    last_exit_price := some 110,
    last_entry_price := some 100, last_exit_reason := rTime,
    last_time_exit_date := some 0, last_processed_minute := some 700 }

/-- C6 witness: later the same day, a tick produces no entry. -/
theorem claim_C6_time_exit_blocks_reentry_witness :
    (onTick c6State ⟨⟨0, 710⟩, 100, 1⟩).position_size = 0 ∧
    (onTick c6State ⟨⟨0, 710⟩, 100, 1⟩).trades = c6State.trades := by
  have h := claim_C6_time_exit_blocks_reentry c6State ⟨⟨0, 710⟩, 100, 1⟩ 110 rfl rfl rfl rfl
  exact ⟨h.1, h.2.1⟩

/-- C3: once the trailing stop is active on an open position, a tick that
leaves the position open never lowers `trail_stop_price` and keeps the trail
active. -/
theorem claim_C3_trail_monotone (s : State) (t : Tick) (ha : s.trailing_active = true)
    (hopen : 0 < s.position_size) (hstill : 0 < (onTick s t).position_size) :
    s.trail_stop_price ≤ (onTick s t).trail_stop_price ∧
    (onTick s t).trailing_active = true := by
  rw [onTick_open s t hopen] at hstill ⊢
  have hp := prePhases_posView s t
  simp only [posView, Prod.mk.injEq] at hp
  obtain ⟨e1, e2, e3, e4, e5, e6, e7, e8, e9⟩ := hp
  have hm := mgmtPhase_trail_mono (prePhases s t) t (by rw [e7]; exact ha)
    (by rw [e1]; exact hopen) hstill
  obtain ⟨g1, g2⟩ := hm
  rw [e9] at g1
  exact ⟨g1, g2⟩

/-- `on_tick` performs no input validation: any tick — also one with a
non-monotonic (not newer) timestamp or negative price/volume — is absorbed
into the forming bar and the daily VWAP accumulators. -/
lemma onTick_absorbs (s : State) (t : Tick) (m : ℤ)
    (hlpm : s.last_processed_minute = some m) (hmono : minuteKey t.ts ≤ m)
    (hday : s.last_vwap_day = some t.ts.day) :
    (onTick s t).daily_vwap_sum_tpv = s.daily_vwap_sum_tpv + t.price * t.volume ∧
    (onTick s t).daily_vwap_sum_volume = s.daily_vwap_sum_volume + t.volume ∧
    (onTick s t).current_bar_data.volume = s.current_bar_data.volume + t.volume := by
  unfold onTick
  have hON : otherView (mgmtPhase (entryPhase (prePhases s t) t) t) =
      otherView (prePhases s t) :=
    (mgmtPhase_otherView _ t).trans (entryPhase_otherView _ t)
  simp only [otherView, Prod.mk.injEq] at hON
  obtain ⟨o1, o2, o3, o4, o5, o6, o7, o8, o9, o10⟩ := hON
  have hbar : barPhase s t = s := barPhase_stale s t m hlpm (not_lt.mpr hmono)
  have hpre : prePhases s t = vwapPhase (formingPhase s t) t := by
    unfold prePhases
    rw [hbar]
  have hv := vwapStep_sameDay (formingPhase s t) t.price t.volume t.ts hday
  obtain ⟨v1, v2, v3⟩ := hv
  refine ⟨?_, ?_, ?_⟩
  · rw [o4, hpre]
    unfold vwapPhase
    rw [setVwapBull_tpv, v1]
    rfl
  · rw [o5, hpre]
    unfold vwapPhase
    rw [setVwapBull_vol, v2]
    rfl
  · rw [o2, hpre]
    unfold vwapPhase
    rw [setVwapBull_cb, v3]
    exact updateCurrentBar_volume s.current_bar_data t.ts t.price t.volume

/-- C2, amended: invalid ticks are *not* rejected at the feed boundary —
`on_tick` validates nothing; a non-monotonic or negative-price/volume tick is
absorbed into the forming bar and VWAP accumulators, and core state changes. -/
theorem claim_C2_no_validation (s : State) (t : Tick) (m : ℤ)
    (hlpm : s.last_processed_minute = some m) (hmono : minuteKey t.ts ≤ m)
    (hday : s.last_vwap_day = some t.ts.day) :
    (onTick s t).daily_vwap_sum_tpv = s.daily_vwap_sum_tpv + t.price * t.volume ∧
    (onTick s t).daily_vwap_sum_volume = s.daily_vwap_sum_volume + t.volume ∧
    (onTick s t).current_bar_data.volume = s.current_bar_data.volume + t.volume :=
  onTick_absorbs s t m hlpm hmono hday

/-- C2 counterexample state: mid-run after a tick at minute 600 of day 0. -/
def c2State : State :=
  { initState defaultParams with
    last_processed_minute := some 600, last_vwap_day := some 0,
    daily_vwap_sum_tpv := 200, daily_vwap_sum_volume := 2,
    current_bar_data := ⟨some 100, some 100, some 100, some 100, 2, some 600⟩ }

/-- C2, counterexample: a tick with an earlier timestamp and negative price
and volume is *not* discarded: the VWAP volume accumulator changes (2 → −1),
so core state is mutated and no rejection occurs. -/
theorem claim_C2_counterexample :
    minuteKey (⟨0, 599⟩ : TS) < 600 ∧ ((-5 : ℚ) < 0) ∧ ((-3 : ℚ) < 0) ∧
    (onTick c2State ⟨⟨0, 599⟩, -5, -3⟩).daily_vwap_sum_volume = -1 ∧
    (onTick c2State ⟨⟨0, 599⟩, -5, -3⟩).daily_vwap_sum_volume ≠
      c2State.daily_vwap_sum_volume := by
  have h := onTick_absorbs c2State ⟨⟨0, 599⟩, -5, -3⟩ 600 rfl
    (by norm_num [minuteKey]) rfl
  refine ⟨by norm_num [minuteKey], by norm_num, by norm_num, ?_, ?_⟩
  · rw [h.2.1]
    norm_num [c2State, initState, defaultParams]
  · rw [h.2.1]
    norm_num [c2State, initState, defaultParams]

/-- C2 witness for the amended claim at the concrete invalid tick. -/
theorem claim_C2_no_validation_witness :
    (onTick c2State ⟨⟨0, 599⟩, -5, -3⟩).daily_vwap_sum_tpv =
      c2State.daily_vwap_sum_tpv + (-5) * (-3) ∧
    (onTick c2State ⟨⟨0, 599⟩, -5, -3⟩).daily_vwap_sum_volume =
      c2State.daily_vwap_sum_volume + (-3) ∧
    (onTick c2State ⟨⟨0, 599⟩, -5, -3⟩).current_bar_data.volume =
      c2State.current_bar_data.volume + (-3) :=
  claim_C2_no_validation c2State ⟨⟨0, 599⟩, -5, -3⟩ 600 rfl
    (by norm_num [minuteKey]) rfl

/-- C3 witness state: trailing active at 120 on an open position. -/
def c3State : State :=
  { initState { defaultParams with use_trail_stop := false, use_tiered_tp := false } with
    position_size := 66, position_entry_price := 100, position_entry_time := some ⟨0, 600⟩,
    position_high_price := 130, trailing_active := true, trail_stop_price := 120,
    base_stop_price := 85, last_processed_minute := some 700 }

/-- C3 witness: a harmless tick keeps the trail at least at 120 and active. -/
theorem claim_C3_trail_monotone_witness :
    c3State.trail_stop_price ≤ (onTick c3State ⟨⟨0, 700⟩, 125, 1⟩).trail_stop_price ∧
    (onTick c3State ⟨⟨0, 700⟩, 125, 1⟩).trailing_active = true := by
  have hin : onTick c3State ⟨⟨0, 700⟩, 125, 1⟩ = prePhases c3State ⟨⟨0, 700⟩, 125, 1⟩ := by
    apply onTick_inert
    · norm_num [c3State, initState, defaultParams]
    · rfl
    · rfl
    · simp [isNearSessionEnd, minutesToEnd, c3State, initState, defaultParams]
      norm_num
    · norm_num [getEffectiveStopPrice, c3State, initState, defaultParams]
  apply claim_C3_trail_monotone c3State ⟨⟨0, 700⟩, 125, 1⟩ rfl
    (by norm_num [c3State, initState, defaultParams])
  rw [hin]
  have e1 : (prePhases c3State ⟨⟨0, 700⟩, 125, 1⟩).position_size = c3State.position_size :=
    congrArg (fun v => v.1) (prePhases_posView c3State ⟨⟨0, 700⟩, 125, 1⟩)
  rw [e1]
  norm_num [c3State, initState, defaultParams]

/-- C5: per tick on an open position, the recorded exit quantities are exactly
the size reduction (up to the `1e-9` effectively-zero residue), never
exceeding the open size; and when all three take-profit thresholds are crossed
at once (with no session-end or stop preemption), the ladder records 50% of
the remaining size, then 60% of the reduced remainder, then the rest with
classification `profit`, the three quantities summing to the entered size. -/
theorem claim_C5_tiered_tp_conservation (s : State) (t : Tick)
    (hopen : 0 < s.position_size) :
    (0 ≤ (onTick s t).position_size ∧
     (onTick s t).position_size + qtySum ((onTick s t).trades.drop s.trades.length) ≤
       s.position_size ∧
     s.position_size ≤
       (onTick s t).position_size + qtySum ((onTick s t).trades.drop s.trades.length) + tol ∧
     qtySum ((onTick s t).trades.drop s.trades.length) ≤ s.position_size) ∧
    (s.tp1_filled = 0 → s.tp2_filled = 0 → s.params.use_tiered_tp = true →
     isNearSessionEnd s.params t.ts = false →
     (checkStopLossHit (updateTrailingStop (prePhases s t) t.price) t.price).1 = false →
     s.position_entry_price + s.params.tp3_points ≤ t.price →
     s.params.tp1_points ≤ s.params.tp3_points →
     s.params.tp2_points ≤ s.params.tp3_points →
     5 * tol < s.position_size →
     ((onTick s t).trades.drop s.trades.length =
        [⟨s.position_entry_time, t.ts, s.position_entry_price, t.price,
          s.position_size * (50 / 100),
          (t.price - s.position_entry_price) * (s.position_size * (50 / 100)), rTP1⟩,
         ⟨s.position_entry_time, t.ts, s.position_entry_price, t.price,
          (s.position_size - s.position_size * (50 / 100)) * (60 / 100),
          (t.price - s.position_entry_price) *
            ((s.position_size - s.position_size * (50 / 100)) * (60 / 100)), rTP2⟩,
         ⟨s.position_entry_time, t.ts, s.position_entry_price, t.price,
          s.position_size - s.position_size * (50 / 100) -
            (s.position_size - s.position_size * (50 / 100)) * (60 / 100),
          (t.price - s.position_entry_price) *
            (s.position_size - s.position_size * (50 / 100) -
              (s.position_size - s.position_size * (50 / 100)) * (60 / 100)), rTP3⟩] ∧
      qtySum ((onTick s t).trades.drop s.trades.length) = s.position_size ∧
      (onTick s t).position_size = 0 ∧
      (onTick s t).last_exit_reason = rProfit)) := by
  constructor
  · obtain ⟨tl, he, hp, hq, hd⟩ := onTick_consStep s t hopen
    have hdrop : (onTick s t).trades.drop s.trades.length = tl := by
      rw [he]
      exact List.drop_left _ _
    rw [hdrop]
    refine ⟨hp, ?_, ?_, ?_⟩ <;>
      (rcases hd with hd | ⟨z, l, u⟩ <;> linarith [tol_pos])
  · intro h2 h3 h4 h5 h6 h7 h8 h9 h10
    rw [onTick_open s t hopen]
    have hpv := prePhases_posView s t
    simp only [posView, Prod.mk.injEq] at hpv
    obtain ⟨e1, e2, e3, e4, e5, e6, e7, e8, e9⟩ := hpv
    have hlv := prePhases_ledgerView s t
    simp only [ledgerView, Prod.mk.injEq] at hlv
    obtain ⟨f1, f2, f3, f4, f5, f6, f7⟩ := hlv
    have hparams := prePhases_params s t
    unfold mgmtPhase
    rw [if_pos (by rw [e1]; exact hopen)]
    rw [if_neg (by rw [hparams]; simp [h5])]
    dsimp only
    rw [if_neg (by simp [h6])]
    have hfr := updateTrailingStop_frame (prePhases s t) t.price
    simp only [trailFrameView, Prod.mk.injEq] at hfr
    obtain ⟨g0, g1, g2, g3, g4, g5, g6, g7, g8, g9, g10, g11, g12, g13⟩ := hfr
    have hc := tpPhase_cascade (updateTrailingStop (prePhases s t) t.price) t.price t.ts
      (by rw [g1, e1]; exact hopen) (by rw [g4, e5]; exact h2) (by rw [g5, e6]; exact h3)
      (by rw [g0, hparams]; exact h4)
      (by rw [g2, e2, g0, hparams]; exact h7)
      (by rw [g0, hparams]; exact h8) (by rw [g0, hparams]; exact h9)
      (by rw [g1, e1]; exact h10)
    obtain ⟨c1, c2, c3⟩ := hc
    have hdrop2 : (tpPhase (updateTrailingStop (prePhases s t) t.price) t.price
        t.ts).trades.drop s.trades.length =
        [⟨s.position_entry_time, t.ts, s.position_entry_price, t.price,
          s.position_size * (50 / 100),
          (t.price - s.position_entry_price) * (s.position_size * (50 / 100)), rTP1⟩,
         ⟨s.position_entry_time, t.ts, s.position_entry_price, t.price,
          (s.position_size - s.position_size * (50 / 100)) * (60 / 100),
          (t.price - s.position_entry_price) *
            ((s.position_size - s.position_size * (50 / 100)) * (60 / 100)), rTP2⟩,
         ⟨s.position_entry_time, t.ts, s.position_entry_price, t.price,
          s.position_size - s.position_size * (50 / 100) -
            (s.position_size - s.position_size * (50 / 100)) * (60 / 100),
          (t.price - s.position_entry_price) *
            (s.position_size - s.position_size * (50 / 100) -
              (s.position_size - s.position_size * (50 / 100)) * (60 / 100)), rTP3⟩] := by
      rw [c1, g3, e3, g2, e2, g1, e1, g7, f1]
      exact List.drop_left _ _
    refine ⟨hdrop2, ?_, c2, c3⟩
    rw [hdrop2]
    simp only [qtySum, List.map_cons, List.map_nil, List.sum_cons, List.sum_nil]
    ring

/-- C5 witness state: open 100-unit position entered at 100. -/
def c5State : State :=
  { initState { defaultParams with use_trail_stop := false } with
    position_size := 100, position_entry_price := 100, position_entry_time := some ⟨0, 600⟩,
    position_high_price := 100, base_stop_price := 85, last_processed_minute := some 700 }

/-- C5 witness: a tick at 200 fires TP1 (50 units), TP2 (30 units) and TP3
(20 units), fully closing the position with classification `profit`. -/
theorem claim_C5_tiered_tp_conservation_witness :
    (onTick c5State ⟨⟨0, 700⟩, 200, 1⟩).trades.drop c5State.trades.length =
      [⟨c5State.position_entry_time, ⟨0, 700⟩, c5State.position_entry_price, 200,
        c5State.position_size * (50 / 100),
        (200 - c5State.position_entry_price) * (c5State.position_size * (50 / 100)), rTP1⟩,
       ⟨c5State.position_entry_time, ⟨0, 700⟩, c5State.position_entry_price, 200,
        (c5State.position_size - c5State.position_size * (50 / 100)) * (60 / 100),
        (200 - c5State.position_entry_price) *
          ((c5State.position_size - c5State.position_size * (50 / 100)) * (60 / 100)), rTP2⟩,
       ⟨c5State.position_entry_time, ⟨0, 700⟩, c5State.position_entry_price, 200,
        c5State.position_size - c5State.position_size * (50 / 100) -
          (c5State.position_size - c5State.position_size * (50 / 100)) * (60 / 100),
        (200 - c5State.position_entry_price) *
          (c5State.position_size - c5State.position_size * (50 / 100) -
            (c5State.position_size - c5State.position_size * (50 / 100)) * (60 / 100)),
        rTP3⟩] ∧
    (onTick c5State ⟨⟨0, 700⟩, 200, 1⟩).position_size = 0 ∧
    (onTick c5State ⟨⟨0, 700⟩, 200, 1⟩).last_exit_reason = rProfit := by
  have hparams := prePhases_params c5State ⟨⟨0, 700⟩, 200, 1⟩
  have hpv := prePhases_posView c5State ⟨⟨0, 700⟩, 200, 1⟩
  simp only [posView, Prod.mk.injEq] at hpv
  obtain ⟨e1, e2, e3, e4, e5, e6, e7, e8, e9⟩ := hpv
  have hoff : updateTrailingStop (prePhases c5State ⟨⟨0, 700⟩, 200, 1⟩) 200 =
      prePhases c5State ⟨⟨0, 700⟩, 200, 1⟩ :=
    updateTrailingStop_off _ _ (by rw [hparams]; rfl)
  have hstop : (checkStopLossHit
      (updateTrailingStop (prePhases c5State ⟨⟨0, 700⟩, 200, 1⟩) 200) 200).1 = false := by
    rw [hoff, checkStopLossHit_miss _ _ ?_]
    rw [getEffectiveStopPrice_congr e7 e9 e8]
    norm_num [getEffectiveStopPrice, c5State, initState, defaultParams]
  have h := (claim_C5_tiered_tp_conservation c5State ⟨⟨0, 700⟩, 200, 1⟩
    (by norm_num [c5State, initState, defaultParams])).2
    rfl rfl rfl
    (by simp [isNearSessionEnd, minutesToEnd, c5State, initState, defaultParams]
        norm_num)
    hstop
    (by norm_num [c5State, initState, defaultParams])
    (by norm_num [c5State, initState, defaultParams])
    (by norm_num [c5State, initState, defaultParams])
    (by norm_num [c5State, initState, defaultParams, tol])
  exact ⟨h.1, h.2.2.1, h.2.2.2⟩

/-- The bar-aggregation fields of `on_tick` are decided before the entry and
management blocks. -/
lemma onTick_aggFields (s : State) (t : Tick) :
    (onTick s t).bar_history = (prePhases s t).bar_history ∧
    (onTick s t).current_bar_data = (prePhases s t).current_bar_data ∧
    (onTick s t).last_processed_minute = (prePhases s t).last_processed_minute := by
  unfold onTick
  have hON := (mgmtPhase_otherView (entryPhase (prePhases s t) t) t).trans
    (entryPhase_otherView (prePhases s t) t)
  simp only [otherView, Prod.mk.injEq] at hON
  exact ⟨hON.1, hON.2.1, hON.2.2.1⟩

/-- C9: on the first tick of a strictly newer minute, the previous forming bar
is finalized and appended to the bounded history exactly when it absorbed at
least one tick (its open is set — which absorbing a tick always establishes
and only reset clears), with the completed minute as timestamp; the forming
state is reset before absorbing the current tick; a minute with no ticks
produces no bar; the oldest bar is dropped once the history would exceed the
maximum length. -/
theorem claim_C9_bar_aggregation (s : State) (t : Tick) (m : ℤ)
    (hlpm : s.last_processed_minute = some m) (hnew : m < minuteKey t.ts) :
    (∀ o, s.current_bar_data.opn = some o →
      (onTick s t).bar_history.map ohlcv =
        boundHistory s.max_bar_history_length (s.bar_history.map ohlcv ++
          [(o, s.current_bar_data.high.getD o, s.current_bar_data.low.getD o,
            s.current_bar_data.close.getD o, s.current_bar_data.volume, m)]) ∧
      (onTick s t).current_bar_data =
        ⟨some t.price, some t.price, some t.price, some t.price, t.volume,
          some (minuteKey t.ts)⟩) ∧
    (s.current_bar_data.opn = none →
      (onTick s t).bar_history.map ohlcv = s.bar_history.map ohlcv) ∧
    (onTick s t).last_processed_minute = some (minuteKey t.ts) ∧
    (s.bar_history.length ≤ s.max_bar_history_length →
      (onTick s t).bar_history.length ≤ s.max_bar_history_length) ∧
    (∀ cb : FormingBar, ((updateCurrentBar cb t.ts t.price t.volume).opn).isSome = true) ∧
    emptyForming.opn = none := by
  obtain ⟨a1, a2, a3⟩ := onTick_aggFields s t
  have hbar := barPhase_new s t m hlpm hnew
  have hpreb : (prePhases s t).bar_history =
      (updateIndicators (closeAndAddBar s m)).bar_history := by
    unfold prePhases
    rw [vwapPhase_bar_history]
    show (barPhase s t).bar_history = _
    rw [hbar]
    rfl
  have hprecb : (prePhases s t).current_bar_data =
      updateCurrentBar (closeAndAddBar s m).current_bar_data t.ts t.price t.volume := by
    unfold prePhases
    rw [vwapPhase_cb]
    show updateCurrentBar (barPhase s t).current_bar_data t.ts t.price t.volume = _
    rw [hbar]
    exact congrArg (fun cb => updateCurrentBar cb t.ts t.price t.volume)
      (updateIndicators_cb (closeAndAddBar s m))
  have hprelpm : (prePhases s t).last_processed_minute = some (minuteKey t.ts) := by
    unfold prePhases
    rw [vwapPhase_lpm]
    show (barPhase s t).last_processed_minute = _
    rw [hbar]
    rfl
  have hmapSome : ∀ o, s.current_bar_data.opn = some o →
      (onTick s t).bar_history.map ohlcv =
        boundHistory s.max_bar_history_length (s.bar_history.map ohlcv ++
          [(o, s.current_bar_data.high.getD o, s.current_bar_data.low.getD o,
            s.current_bar_data.close.getD o, s.current_bar_data.volume, m)]) := by
    intro o ho
    rw [a1, hpreb, updateIndicators_ohlcv, closeAndAddBar_some s m o ho]
    dsimp only
    rw [boundHistory_map, List.map_append]
    rfl
  have hmapNone : s.current_bar_data.opn = none →
      (onTick s t).bar_history.map ohlcv = s.bar_history.map ohlcv := by
    intro ho
    rw [a1, hpreb, updateIndicators_ohlcv, closeAndAddBar_none s m ho]
  refine ⟨?_, hmapNone, ?_, ?_, ?_, rfl⟩
  · intro o ho
    refine ⟨hmapSome o ho, ?_⟩
    rw [a2, hprecb, closeAndAddBar_some s m o ho]
    show updateCurrentBar emptyForming t.ts t.price t.volume = _
    unfold updateCurrentBar emptyForming
    simp
  · rw [a3, hprelpm]
  · intro hlen
    rcases hc : s.current_bar_data.opn with _ | o
    · have hlm := congrArg List.length (hmapNone hc)
      rw [List.length_map, List.length_map] at hlm
      rw [hlm]
      exact hlen
    · have hlm := congrArg List.length (hmapSome o hc)
      rw [List.length_map] at hlm
      rw [hlm]
      exact boundHistory_length_le _ _ _ (by rw [List.length_map]; exact hlen)
  · exact fun cb => updateCurrentBar_isSome cb t.ts t.price t.volume

/-- C9 witness state: a forming bar with data at minute 600 of day 0. -/
def c9State : State :=
  { initState defaultParams with
    last_processed_minute := some 600, last_vwap_day := some 0,
    current_bar_data := ⟨some 100, some 101, some 99, some 100, 5, some 600⟩ }

/-- C9 witness: the first tick of minute 601 closes the 600-bar into history
and restarts the forming bar from that tick. -/
theorem claim_C9_bar_aggregation_witness :
    (onTick c9State ⟨⟨0, 601⟩, 102, 1⟩).bar_history.map ohlcv =
      boundHistory c9State.max_bar_history_length
        (c9State.bar_history.map ohlcv ++ [(100, 101, 99, 100, 5, 600)]) ∧
    (onTick c9State ⟨⟨0, 601⟩, 102, 1⟩).current_bar_data =
      ⟨some 102, some 102, some 102, some 102, 1, some 601⟩ ∧
    (onTick c9State ⟨⟨0, 601⟩, 102, 1⟩).last_processed_minute = some 601 := by
  have hmk : minuteKey (⟨0, 601⟩ : TS) = (601 : ℤ) := by norm_num [minuteKey]
  have h := claim_C9_bar_aggregation c9State ⟨⟨0, 601⟩, 102, 1⟩ 600 rfl
    (by rw [hmk]; norm_num)
  obtain ⟨hA, _, hC, _, _, _⟩ := h
  have h1 := (hA 100 rfl).1
  have h2 := (hA 100 rfl).2
  rw [hmk] at h2 hC
  exact ⟨h1, h2, hC⟩

/-- C7 witness: the amended behavior at concrete inputs. -/
theorem claim_C7_rsi_zero_losses_witness :
    rsiStrategyLatest 2 [1, 2, 3, 4] = some 100 ∧ rsiIndicatorCalc 2 [5, 5, 5, 5] = none :=
  ⟨(claim_C7_rsi_zero_losses 2 [1, 2, 3, 4] (by norm_num)).1
     (by norm_num [slidingMeans, lossParts, diffs, takeLast, List.range_succ]),
   (claim_C7_rsi_zero_losses 2 [5, 5, 5, 5] (by norm_num)).2.2
     (by norm_num [lossParts, diffs, takeLast])
     (by norm_num [gainParts, diffs, takeLast])⟩

end AngelAlgo
